import Mathlib

/-!
Verification of the CodeInspector layered analysis pipeline.

The JavaScript sources are shallowly embedded: file contents are lists of
characters, the regex scans of the quality layer are implemented as dedicated
character-list scanners that reproduce the behaviour of the specific regular
expressions appearing in the source, and the pipeline engine is modelled over
an explicit JSON value type.  Whitespace (`\s`) and word (`\w`) character
classes are modelled over their ASCII range.
-/

namespace CodeInspector

/-- Word character test, modelling the regex class `\w` = [A-Za-z0-9_]. -/
def isWordChar (c : Char) : Bool :=
  ('a' ≤ c && c ≤ 'z') || ('A' ≤ c && c ≤ 'Z') || ('0' ≤ c && c ≤ '9') || c = '_'

/-- Whitespace test, modelling the regex class `\s` on its ASCII range
(space, tab, line feed, carriage return, vertical tab, form feed). -/
def isSpaceChar (c : Char) : Bool :=
  c = ' ' || c = '\t' || c = '\n' || c = '\r' ||
  c = Char.ofNat 11 || c = Char.ofNat 12

/-- Newline count of a character list (used to turn a match index into the
1-based line number `content.substring(0, idx).split('\n').length`). -/
def countNl (l : List Char) : Nat := l.countP (· = '\n')

/-- Characters of a string literal. -/
def chars (s : String) : List Char := s.data

/-- String suffix test over character lists (JavaScript `endsWith`). -/
def strEndsWith (s suffix : String) : Bool :=
  (chars suffix).isSuffixOf (chars s)

/-- String prefix test over character lists (JavaScript `startsWith`). -/
def strStartsWith (s p : String) : Bool :=
  (chars p).isPrefixOf (chars s)

/-- Generic scanner mirroring a JavaScript `while ((m = re.exec(text)))` loop:
at each position the matcher `f` either yields a capture together with the
rest of the text after the match, or the scan advances one character.  The
fuel argument is initialised with the text length; every successful match of
the regexes modelled here consumes at least one character, so the fuel never
runs out before the text does. -/
def scanWith (f : List Char → Option (String × List Char)) :
    Nat → List Char → List String
  | 0, _ => []
  | _ + 1, [] => []
  | fuel + 1, c :: cs =>
    match f (c :: cs) with
    | some (nm, rest) => nm :: scanWith f fuel rest
    | none => scanWith f fuel cs

/-- Run a positional matcher over a whole text. -/
def runScan (f : List Char → Option (String × List Char)) (l : List Char) :
    List String :=
  scanWith f l.length l

/-- Function-call reference scan, modelling `/\b(\w+)\s*\(/g` from
`collectReferences`: every maximal word run that is followed by optional
whitespace and an opening parenthesis is captured.  (The word boundary makes
the match start at the beginning of a maximal run.) -/
def funcCallScanGo : Nat → List Char → List String
  | 0, _ => []
  | _ + 1, [] => []
  | fuel + 1, c :: cs =>
    if isWordChar c then
      let run := c :: cs.takeWhile isWordChar
      let rest := cs.dropWhile isWordChar
      let tail := rest.dropWhile isSpaceChar
      let found := funcCallScanGo fuel rest
      if tail.head? = some '(' then String.mk run :: found else found
    else funcCallScanGo fuel cs

/-- Scan of a whole text for function-call references. -/
def funcCallScan (l : List Char) : List String := funcCallScanGo l.length l

/-- Static-access reference scan, modelling `/(\w+)\:\:/g` from
`collectReferences`: maximal word runs immediately followed by `::`. -/
def staticCallScanGo : Nat → List Char → List String
  | 0, _ => []
  | _ + 1, [] => []
  | fuel + 1, c :: cs =>
    if isWordChar c then
      let run := c :: cs.takeWhile isWordChar
      let rest := cs.dropWhile isWordChar
      let found := staticCallScanGo fuel rest
      if [':', ':'].isPrefixOf rest then String.mk run :: found else found
    else staticCallScanGo fuel cs

/-- Scan of a whole text for static-access references. -/
def staticCallScan (l : List Char) : List String := staticCallScanGo l.length l

/-- Positional matcher for `/(?:->|\.|\:\:)\s*(\w+)\s*\(/g` (method, property
and static call references). -/
def tryMethodCall (l : List Char) : Option (String × List Char) :=
  let afterOp : Option (List Char) :=
    if ['-', '>'].isPrefixOf l then some (l.drop 2)
    else if l.head? = some '.' then some (l.drop 1)
    else if [':', ':'].isPrefixOf l then some (l.drop 2)
    else none
  match afterOp with
  | none => none
  | some a =>
    let b := a.dropWhile isSpaceChar
    let run := b.takeWhile isWordChar
    if run.isEmpty then none
    else
      match (b.dropWhile isWordChar).dropWhile isSpaceChar with
      | '(' :: rest => some (String.mk run, rest)
      | _ => none

/-- Positional matcher for `/new\s+(\w+)/g` (instantiation references). -/
def tryNewClass (l : List Char) : Option (String × List Char) :=
  if ['n', 'e', 'w'].isPrefixOf l then
    let a := l.drop 3
    match a.head? with
    | some c =>
      if isSpaceChar c then
        let b := a.dropWhile isSpaceChar
        let run := b.takeWhile isWordChar
        if run.isEmpty then none
        else some (String.mk run, b.dropWhile isWordChar)
      else none
    | none => none
  else none

/-- Helper: match a literal keyword followed by optional whitespace and then a
nonempty word run; used by the type-reference matcher. -/
def kwThenWord (kw : List Char) (l : List Char) : Option (String × List Char) :=
  if kw.isPrefixOf l then
    let b := (l.drop kw.length).dropWhile isSpaceChar
    let run := b.takeWhile isWordChar
    if run.isEmpty then none
    else some (String.mk run, b.dropWhile isWordChar)
  else none

/-- Positional matcher for `/(?:extends|implements|instanceof|\:\s*)\s*(\w+)/g`
(type-position references). -/
def tryClassRef (l : List Char) : Option (String × List Char) :=
  match kwThenWord (chars "extends") l with
  | some r => some r
  | none =>
    match kwThenWord (chars "implements") l with
    | some r => some r
    | none =>
      match kwThenWord (chars "instanceof") l with
      | some r => some r
      | none =>
        match l.head? with
        | some ':' => kwThenWord [':'] l
        | _ => none

/-- Positional matcher for `/(?:import|require|use)\s+.*?(\w+)/g` (import
specifier references): after the keyword and at least one whitespace
character, the lazy dot walks to the first word run without crossing a line
break. -/
def tryImportRef (l : List Char) : Option (String × List Char) :=
  let kw : Option (List Char) :=
    if (chars "import").isPrefixOf l then some (l.drop 6)
    else if (chars "require").isPrefixOf l then some (l.drop 7)
    else if (chars "use").isPrefixOf l then some (l.drop 3)
    else none
  match kw with
  | none => none
  | some a =>
    match a.head? with
    | some c =>
      if isSpaceChar c then dotScanWord (a.dropWhile isSpaceChar) else none
    | none => none
where
  /-- Walk over non-newline characters to the first word run (the `.*?(\w+)`
  part; the dot does not match line breaks). -/
  dotScanWord : List Char → Option (String × List Char)
    | [] => none
    | c :: cs =>
      if isWordChar c then
        some (String.mk (c :: cs.takeWhile isWordChar), cs.dropWhile isWordChar)
      else if c = '\n' || c = '\r' then none
      else dotScanWord cs

/-- All references contributed by one file content, modelling the body of the
`collectReferences` loop: the union (here: concatenation) of the six scans. -/
def refsOfContent (cs : List Char) : List String :=
  funcCallScan cs ++ runScan tryMethodCall cs ++ runScan tryNewClass cs ++
  runScan tryClassRef cs ++ staticCallScan cs ++ runScan tryImportRef cs

/-- Project-wide reference set, modelling `CodeQualityLayer.collectReferences`:
falsy (empty) contents are skipped, all other file contents are scanned. -/
def collectReferences (fileContents : List (String × String)) : List String :=
  fileContents.flatMap fun pc =>
    if pc.2 = "" then [] else refsOfContent (chars pc.2)

/-! Dynamic class-loading detection (`detectDynamicClassLoading`). -/

/-- Existence of a suffix on which the predicate holds (used to model
`regex.test(content)` for the anchored-at-a-position patterns below). -/
def anySuffix (p : List Char → Bool) : List Char → Bool
  | [] => p []
  | c :: cs => p (c :: cs) || anySuffix p cs

/-- Positional test for `/new\s+\$\w+\s*\(/m`. -/
def atNewDollarParen (l : List Char) : Bool :=
  (['n', 'e', 'w'].isPrefixOf l) &&
    (let a := l.drop 3
     match a.head? with
     | some c =>
       isSpaceChar c &&
         (match a.dropWhile isSpaceChar with
          | '$' :: r =>
            (match r.head? with
             | some w => isWordChar w &&
                 ((r.dropWhile isWordChar).dropWhile isSpaceChar).head? = some '('
             | none => false)
          | _ => false)
     | none => false)

/-- Positional test for `/\$\w+\s*=\s*ucfirst\s*\(/m`. -/
def atDollarUcfirst (l : List Char) : Bool :=
  match l with
  | '$' :: r =>
    (match r.head? with
     | some w =>
       isWordChar w &&
         (match (r.dropWhile isWordChar).dropWhile isSpaceChar with
          | '=' :: r2 =>
            let r3 := r2.dropWhile isSpaceChar
            (chars "ucfirst").isPrefixOf r3 &&
              ((r3.drop 7).dropWhile isSpaceChar).head? = some '('
          | _ => false)
     | none => false)
  | _ => false

/-- Positional test for `/call_user_func\s*\(\s*\[/m`. -/
def atCallUserFunc (l : List Char) : Bool :=
  (chars "call_user_func").isPrefixOf l &&
    (match (l.drop 14).dropWhile isSpaceChar with
     | '(' :: r => (r.dropWhile isSpaceChar).head? = some '['
     | _ => false)

/-- Positional test for `/new\s+\$\$/m`. -/
def atNewDollarDollar (l : List Char) : Bool :=
  (['n', 'e', 'w'].isPrefixOf l) &&
    (let a := l.drop 3
     match a.head? with
     | some c => isSpaceChar c && ['$', '$'].isPrefixOf (a.dropWhile isSpaceChar)
     | none => false)

/-- Model of `CodeQualityLayer.detectDynamicClassLoading`: scans every
non-empty `.php` file content for one of the four dynamic-instantiation
patterns. -/
def detectDynamicClassLoading (fileContents : List (String × String)) : Bool :=
  fileContents.any fun pc =>
    pc.2 ≠ "" && strEndsWith pc.1 ".php" &&
      (anySuffix atNewDollarParen (chars pc.2) ||
       anySuffix atDollarUcfirst (chars pc.2) ||
       anySuffix atCallUserFunc (chars pc.2) ||
       anySuffix atNewDollarDollar (chars pc.2))

/-! Data model of the quality layer's inputs (the relevant parts of the
snapshot: `codeStructure.files`, `techStack.dependencies`, `_fileContents`,
and `fileSystem.files` with its obfuscated flag). -/

/-- Declared standalone function (an element of `file.functions`). -/
structure FuncDecl where
  name : String
  line : Nat
deriving DecidableEq, Repr

/-- Declared method of a class (an element of `cls.methods`). -/
structure MethodDecl where
  name : String
  line : Nat
  visibility : Option String := none
deriving DecidableEq, Repr

/-- Declared class (an element of `file.classes`). -/
structure ClassDecl where
  name : String
  line : Nat
  methods : List MethodDecl
deriving DecidableEq, Repr

/-- Import statement record extracted by the structure layer. -/
structure ImportDecl where
  source : String
  specifiers : List String := []
  aliasName : Option String := none
  line : Nat
deriving DecidableEq, Repr

/-- Per-file structural analysis (an element of `codeStructure.files`). -/
structure FileAnalysis where
  path : String
  language : String
  classes : List ClassDecl := []
  functions : List FuncDecl := []
  imports : List ImportDecl := []
deriving DecidableEq, Repr

/-- Declared dependency (an element of `techStack.dependencies`). -/
structure Dep where
  name : String
  version : String := ""
  source : String := ""
deriving DecidableEq, Repr

/-- Entry of `fileSystem.files` as far as the quality layer's claims are
concerned: the path and the obfuscated flag set by the file-system layer. -/
structure FsFile where
  path : String
  obfuscated : Bool
deriving DecidableEq, Repr

/-- The parts of the engine snapshot read by (or, for `fsFiles`, visible to)
`CodeQualityLayer.process`. -/
structure CQSnapshot where
  fileContents : List (String × String) := []
  files : List FileAnalysis := []
  dependencies : List Dep := []
  fsFiles : List FsFile := []
deriving DecidableEq, Repr

/-- Declared-symbol record built by `collectDeclaredSymbols`. -/
structure Sym where
  name : String
  file : String
  line : Nat
  className : Option String := none
  visibility : Option String := none
  language : String
deriving DecidableEq, Repr

/-- Result of `collectDeclaredSymbols`. -/
structure DeclSyms where
  functions : List Sym
  methods : List Sym
  classes : List Sym
deriving DecidableEq, Repr

/-- Model of `CodeQualityLayer.collectDeclaredSymbols`: flattens the per-file
structure lists, skipping constructors and magic methods (`constructor`,
`__construct`, any name starting with `__`) in the method bucket. -/
def collectDeclaredSymbols (filesAnalysis : List FileAnalysis) : DeclSyms where
  functions := filesAnalysis.flatMap fun f =>
    f.functions.map fun fn =>
      { name := fn.name, file := f.path, line := fn.line, language := f.language }
  methods := filesAnalysis.flatMap fun f =>
    f.classes.flatMap fun c =>
      (c.methods.filter fun m =>
        ¬(m.name = "constructor" ∨ m.name = "__construct" ∨
          strStartsWith m.name "__")).map fun m =>
        { name := m.name, file := f.path, line := m.line,
          className := some c.name, visibility := m.visibility,
          language := f.language }
  classes := filesAnalysis.flatMap fun f =>
    f.classes.map fun c =>
      { name := c.name, file := f.path, line := c.line, language := f.language }

/-- Model of `CodeQualityLayer.isEntryPoint`: the fixed allowlist of
framework-invoked lifecycle and dispatch names. -/
def isEntryPoint (name : String) : Bool :=
  [ "main", "init", "setup", "boot", "register",
    "run", "start", "execute", "handle",
    "__construct", "__destruct", "__get", "__set", "__call",
    "__callStatic", "__toString", "__invoke", "__clone",
    "render", "componentDidMount", "componentDidUpdate",
    "componentWillUnmount", "useEffect", "useState",
    "mounted", "created", "updated", "destroyed", "setup",
    "toJSON", "toString", "valueOf", "Symbol",
    "get", "set", "post", "put", "delete", "patch",
    "index", "store", "show", "update", "destroy", "create"
  ].contains name

/-- Unused function/method record pushed by `findUnusedSymbols`. -/
structure UnusedEntry where
  name : String
  file : String
  line : Nat
  className : Option String
  language : String
  description : String
deriving DecidableEq, Repr

/-- Model of `CodeQualityLayer.findUnusedSymbols`: a declared symbol is
unused when its name is neither in the entry-point allowlist nor in the
reference set. -/
def findUnusedSymbols (declared : List Sym) (referenced : List String) :
    List UnusedEntry :=
  declared.filterMap fun s =>
    if isEntryPoint s.name then none
    else if referenced.contains s.name then none
    else some
      { name := s.name, file := s.file, line := s.line,
        className := s.className, language := s.language,
        description :=
          "\"" ++ s.name ++ "\" is declared but never referenced in the project" }

/-- Unused class record pushed by `findUnusedClasses` (carries its own
severity and the dynamic flag). -/
structure UnusedClassEntry where
  name : String
  file : String
  line : Nat
  language : String
  dynamic : Bool
  severity : String
  description : String
deriving DecidableEq, Repr

/-- Model of `CodeQualityLayer.findUnusedClasses`: unreferenced classes are
reported; when the project shows PHP dynamic class loading, unused PHP
classes are downgraded to severity `info` with the `dynamic` flag set. -/
def findUnusedClasses (declaredClasses : List Sym) (referenced : List String)
    (hasDynamicLoading : Bool) : List UnusedClassEntry :=
  declaredClasses.filterMap fun cls =>
    if isEntryPoint cls.name then none
    else if referenced.contains cls.name then none
    else
      let isDynamic := cls.language = "php" && hasDynamicLoading
      some
        { name := cls.name, file := cls.file, line := cls.line,
          language := cls.language, dynamic := isDynamic,
          severity := if isDynamic then "info" else "warning",
          description :=
            if isDynamic then
              "\"" ++ cls.name ++
                "\" has no direct reference — likely loaded dynamically (new $variable pattern detected)"
            else
              "\"" ++ cls.name ++ "\" is declared but never referenced in the project" }

/-! Unused imports (`findUnusedImports`). -/

/-- Word-boundary test of the regex `\b` between two optional characters
(out-of-range positions count as non-word). -/
def wordBoundary (prev next : Option Char) : Bool :=
  (match prev with | some c => isWordChar c | none => false) ≠
  (match next with | some c => isWordChar c | none => false)

/-- Count of non-overlapping matches of `\bneedle\b` (for a non-empty literal
needle), modelling `content.match(new RegExp('\\b' + spec + '\\b', 'g'))`. -/
def countWordBound (needle : List Char) : Nat → Option Char → List Char → Nat
  | 0, _, _ => 0
  | _ + 1, _, [] => 0
  | fuel + 1, prev, c :: cs =>
    let hit :=
      needle.isPrefixOf (c :: cs) && wordBoundary prev (some c) &&
        wordBoundary needle.getLast? ((c :: cs).drop needle.length).head?
    if hit then
      1 + countWordBound needle fuel ((c :: cs).drop (needle.length - 1)).head?
            ((c :: cs).drop needle.length)
    else countWordBound needle fuel (some c) cs

/-- First value bound to a key in an association list (JavaScript object
lookup `fileContents[path]`). -/
def lookupContent (fileContents : List (String × String)) (path : String) :
    Option String :=
  (fileContents.find? fun pc => pc.1 = path).map (·.2)

/-- Unused import record pushed by `findUnusedImports`. -/
structure UnusedImportEntry where
  name : String
  source : String
  file : String
  line : Nat
  description : String
deriving DecidableEq, Repr

/-- Model of `CodeQualityLayer.findUnusedImports`: an import specifier is
unused in its file when its word-bounded occurrence count there is at most
one (the import statement itself).  When a record has no specifiers but an
alias, the alias is checked; `$`-prefixed and empty specifiers are skipped. -/
def findUnusedImports (filesAnalysis : List FileAnalysis)
    (fileContents : List (String × String)) : List UnusedImportEntry :=
  filesAnalysis.flatMap fun f =>
    match lookupContent fileContents f.path with
    | none => []
    | some content =>
      if content = "" then []
      else
        f.imports.flatMap fun imp =>
          let specifiers :=
            if imp.specifiers = [] then
              match imp.aliasName with
              | some a => [a]
              | none => []
            else imp.specifiers
          specifiers.filterMap fun sp =>
            if sp = "" || strStartsWith sp "$" then none
            else if countWordBound (chars sp) (chars content).length none
                (chars content) ≤ 1 then
              some
                { name := sp, source := imp.source, file := f.path,
                  line := imp.line,
                  description :=
                    "Import \"" ++ sp ++ "\" from \"" ++ imp.source ++
                      "\" is never used" }
            else none

/-! Unused dependencies (`findUnusedDependencies`). -/

/-- Quote characters accepted by the `['"]name['"/]` usage pattern. -/
def isQuote (c : Char) : Bool := c = '\'' || c = '"'

/-- Positional test for `['"]name['"/]`. -/
def atQuotedName (name : List Char) (l : List Char) : Bool :=
  match l with
  | q :: rest =>
    isQuote q && name.isPrefixOf rest &&
      (match (rest.drop name.length).head? with
       | some c => isQuote c || c = '/'
       | none => false)
  | [] => false

/-- Positional test for `require\s*\(\s*['"]name`. -/
def atRequireName (name : List Char) (l : List Char) : Bool :=
  (chars "require").isPrefixOf l &&
    (match (l.drop 7).dropWhile isSpaceChar with
     | '(' :: r =>
       (match r.dropWhile isSpaceChar with
        | q :: r2 => isQuote q && name.isPrefixOf r2
        | [] => false)
     | _ => false)

/-- Positional test for `from\s+['"]name`. -/
def atFromName (name : List Char) (l : List Char) : Bool :=
  (chars "from").isPrefixOf l &&
    (let a := l.drop 4
     match a.head? with
     | some c =>
       isSpaceChar c &&
         (match a.dropWhile isSpaceChar with
          | q :: r => isQuote q && name.isPrefixOf r
          | [] => false)
     | none => false)

/-- Positional test for the case-insensitive `use\s+name` pattern (slashes in
the dependency name stand for two literal backslashes in the text, mirroring
the `namePattern.replace(/\//g, '\\\\\\\\')` rewrite); both sides are
compared lowercased. -/
def atUseName (name : List Char) (l : List Char) : Bool :=
  (chars "use").isPrefixOf (l.map Char.toLower) &&
    (let a := l.drop 3
     match a.head? with
     | some c =>
       isSpaceChar c &&
         (name.flatMap fun d =>
           if d = '/' then ['\\', '\\'] else [d.toLower]).isPrefixOf
           ((a.dropWhile isSpaceChar).map Char.toLower)
     | none => false)

/-- Unused dependency record pushed by `findUnusedDependencies`. -/
structure UnusedDepEntry where
  name : String
  version : String
  source : String
  description : String
deriving DecidableEq, Repr

/-- Substring test (JavaScript `name.includes(p)`). -/
def containsSubstr (hay needle : List Char) : Bool :=
  anySuffix (fun l => needle.isPrefixOf l) hay

/-- Model of `CodeQualityLayer.findUnusedDependencies`: after excluding
implicit tooling packages by substring, a dependency is unused when none of
the four import-like usage patterns matches the concatenation of all truthy
file contents. -/
def findUnusedDependencies (deps : List Dep)
    (fileContents : List (String × String)) : List UnusedDepEntry :=
  let allCode :=
    chars (String.intercalate "\n"
      ((fileContents.map (·.2)).filter (· ≠ "")))
  deps.filterMap fun dep =>
    if dep.name = "" then none
    else if
      [ "php", "node", "typescript", "nodemon", "@types/",
        "eslint", "prettier", "jest", "mocha", "webpack", "vite", "babel",
        "autoprefixer", "postcss", "sass", "less", "dotenv"
      ].any (fun p => containsSubstr (chars dep.name) (chars p)) then none
    else
      let nm := chars dep.name
      let isUsed :=
        anySuffix (atQuotedName nm) allCode ||
        anySuffix (atRequireName nm) allCode ||
        anySuffix (atFromName nm) allCode ||
        anySuffix (atUseName nm) allCode
      if isUsed then none
      else some
        { name := dep.name, version := dep.version, source := dep.source,
          description :=
            "Dependency \"" ++ dep.name ++ "\" is listed in " ++ dep.source ++
              " but not imported in code" }

/-! Large functions (`findLargeFunctions` / `countFunctionLines`). -/

/-- Content split on `'\n'` (JavaScript `content.split('\n')`). -/
def splitNewline : List Char → List (List Char)
  | [] => [[]]
  | c :: cs =>
    if c = '\n' then [] :: splitNewline cs
    else
      match splitNewline cs with
      | [] => [[c]]
      | p :: ps => (c :: p) :: ps

/-- Loop body of `countFunctionLines`: per line, update the brace depth and
the started flag, count lines once a brace has been seen, and stop when the
depth returns to zero. -/
def cflGo : List (List Char) → Int → Bool → Nat → Nat
  | [], _, _, count => count
  | l :: ls, depth, started, count =>
    let ds := l.foldl
      (fun (p : Int × Bool) ch =>
        if ch = '{' then (p.1 + 1, true)
        else if ch = '}' then (p.1 - 1, p.2)
        else p)
      (depth, started)
    let count' := if ds.2 then count + 1 else count
    if ds.2 && ds.1 = 0 then count'
    else cflGo ls ds.1 ds.2 count'

/-- Model of `CodeQualityLayer.countFunctionLines`. -/
def countFunctionLines (lines : List (List Char)) (startLine : Nat) : Nat :=
  cflGo (lines.drop startLine) 0 false 0

/-- Language-aware large-function threshold (`CodeQualityLayer.THRESHOLDS`,
with the `||`-default of 150 for unknown languages). -/
def thresholdFor (lang : String) : Nat :=
  if lang = "php" then 500
  else if lang = "javascript" then 100
  else if lang = "typescript" then 100
  else if lang = "vue" then 100
  else 150

/-- Languages where large functions are informational
(`CodeQualityLayer.LENIENT_LANGUAGES`). -/
def isLenientLanguage (lang : String) : Bool :=
  lang = "php" || lang = "javascript" || lang = "typescript" || lang = "vue"

/-- Large function record pushed by `findLargeFunctions`. -/
structure LargeFnEntry where
  name : String
  file : String
  line : Nat
  lines : Nat
  threshold : Nat
  language : String
  description : String
deriving DecidableEq, Repr

/-- Model of `CodeQualityLayer.findLargeFunctions`: standalone functions and
methods whose brace-counted body exceeds the per-language threshold. -/
def findLargeFunctions (fileContents : List (String × String))
    (filesAnalysis : List FileAnalysis) : List LargeFnEntry :=
  filesAnalysis.flatMap fun f =>
    match lookupContent fileContents f.path with
    | none => []
    | some content =>
      if content = "" then []
      else
        let lineList := splitNewline (chars content)
        let lang := if f.language = "" then "default" else f.language
        let thr := thresholdFor lang
        (f.functions.filterMap fun fn =>
          let n := countFunctionLines lineList (fn.line - 1)
          if thr < n then
            some
              { name := fn.name, file := f.path, line := fn.line, lines := n,
                threshold := thr, language := lang,
                description :=
                  "Function \"" ++ fn.name ++ "\" is " ++ toString n ++
                    " lines (threshold for " ++ lang ++ ": " ++ toString thr ++ ")" }
          else none) ++
        f.classes.flatMap fun c =>
          c.methods.filterMap fun m =>
            let n := countFunctionLines lineList (m.line - 1)
            if thr < n then
              some
                { name := c.name ++ "." ++ m.name, file := f.path,
                  line := m.line, lines := n, threshold := thr,
                  language := lang,
                  description :=
                    "Method \"" ++ c.name ++ "." ++ m.name ++ "\" is " ++
                      toString n ++ " lines (threshold for " ++ lang ++ ": " ++
                      toString thr ++ ")" }
            else none

/-! Commented-out code detection (`findCommentedCode`). -/

/-- JavaScript `String.prototype.trim` on the ASCII whitespace range. -/
def jsTrim (l : List Char) : List Char :=
  ((l.dropWhile isSpaceChar).reverse.dropWhile isSpaceChar).reverse

/-- First index of an occurrence of `pat` (JavaScript `indexOf`), or none. -/
def idxOfSeq (pat : List Char) : List Char → Option Nat
  | [] => if pat = [] then some 0 else none
  | c :: cs =>
    if pat.isPrefixOf (c :: cs) then some 0
    else (idxOfSeq pat cs).map (· + 1)

/-- List-level `startsWith`. -/
def startsWithSeq (pat l : List Char) : Bool := pat.isPrefixOf l

/-- Commented-code block record pushed by `flushBlock`. -/
structure CommentRec where
  name : String
  file : String
  line : Nat
  lines : Nat
  description : String
deriving DecidableEq, Repr

/-- Scanner state of the per-file comment pass (`blockStart = none` models
the JavaScript sentinel `-1`). -/
structure CCState where
  blockStart : Option Nat := none
  blockLines : Nat := 0
  inBlockComment : Bool := false
  isDocBlock : Bool := false
  results : List CommentRec := []
deriving DecidableEq, Repr

/-- Model of the nested `flushBlock` helper: blocks of at least `MIN_BLOCK`
(8) lines that are not doc blocks are recorded; the accumulation state is
reset either way. -/
def flushBlock (file : String) (endLine : Nat) (s : CCState) : CCState :=
  { blockStart := none, blockLines := 0, isDocBlock := false,
    inBlockComment := s.inBlockComment,
    results :=
      if 8 ≤ s.blockLines ∧ s.isDocBlock = false then
        s.results ++
          [{ name := toString s.blockLines ++ " commented lines",
             file := file,
             line := match s.blockStart with | some b => b + 1 | none => 0,
             lines := s.blockLines,
             description :=
               toString s.blockLines ++ " consecutive commented lines (line " ++
                 toString (match s.blockStart with | some b => b + 1 | none => 0) ++
                 "-" ++ toString endLine ++
                 "). Consider removing dead code to reduce file size." }]
      else s.results }

/-- Model of `_isNextLineComment`. -/
def isNextLineComment (allLines : List (List Char)) (idx : Nat) : Bool :=
  match allLines.drop idx with
  | [] => false
  | l :: _ =>
    let t := jsTrim l
    startsWithSeq (chars "//") t || startsWithSeq (chars "#") t ||
      startsWithSeq (chars "/*") t || startsWithSeq (chars "*") t

/-- One iteration of the per-line loop of `findCommentedCode`. -/
def ccStep (file : String) (allLines : List (List Char)) (j : Nat)
    (line : List Char) (s : CCState) : CCState :=
  let trimmed := jsTrim line
  if s.inBlockComment = false then
    if startsWithSeq (chars "/*") trimmed then
      let s1 : CCState :=
        { s with
          isDocBlock :=
            startsWithSeq (chars "/**") trimmed ||
              startsWithSeq (chars "/*!") trimmed,
          inBlockComment := true,
          blockStart := match s.blockStart with | none => some j | some b => some b,
          blockLines := s.blockLines + 1 }
      match idxOfSeq (chars "*/") trimmed with
      | some iEnd =>
        if iEnd > ((idxOfSeq (chars "/*") trimmed).getD 0) + 1 then
          let s2 := { s1 with inBlockComment := false }
          if s2.blockLines < 8 ∧ isNextLineComment allLines (j + 1) = false then
            flushBlock file (j + 1) s2
          else s2
        else s1
      | none => s1
    else if startsWithSeq (chars "//") trimmed ||
        (startsWithSeq (chars "#") trimmed &&
          !startsWithSeq (chars "#!") trimmed) then
      { s with
        blockStart := match s.blockStart with | none => some j | some b => some b,
        blockLines := s.blockLines + 1 }
    else
      if 0 < s.blockLines then flushBlock file j s else s
  else
    let s1 := { s with blockLines := s.blockLines + 1 }
    if (idxOfSeq (chars "*/") trimmed).isSome then
      let s2 := { s1 with inBlockComment := false }
      if isNextLineComment allLines (j + 1) = false then
        flushBlock file (j + 1) s2
      else s2
    else s1

/-- Fold of `ccStep` over the numbered lines. -/
def ccLoop (file : String) (allLines : List (List Char)) :
    Nat → List (List Char) → CCState → CCState
  | _, [], s => s
  | j, l :: ls, s => ccLoop file allLines (j + 1) ls (ccStep file allLines j l s)

/-- Per-file commented-code detection: run the scanner over all lines and
flush any block still open at the end of the file. -/
def findCommentedCodeFile (file : String) (allLines : List (List Char)) :
    List CommentRec :=
  let s := ccLoop file allLines 0 allLines {}
  (if 0 < s.blockLines then flushBlock file allLines.length s else s).results

/-- Extension filter of `findCommentedCode`
(`/\.(php|js|jsx|ts|tsx|vue)$/`). -/
def hasCommentScanExt (path : String) : Bool :=
  strEndsWith path ".php" || strEndsWith path ".js" || strEndsWith path ".jsx" ||
    strEndsWith path ".ts" || strEndsWith path ".tsx" || strEndsWith path ".vue"

/-- Model of `CodeQualityLayer.findCommentedCode`: each non-empty file with a
code extension is scanned line by line for contiguous comment runs. -/
def findCommentedCode (fileContents : List (String × String)) :
    List CommentRec :=
  fileContents.flatMap fun pc =>
    if pc.2 = "" || !hasCommentScanExt pc.1 then []
    else findCommentedCodeFile pc.1 (splitNewline (chars pc.2))

/-! Complexity analysis (`analyzeComplexity`). -/

/-- Count of maximal word runs equal to `kw` followed by optional whitespace
and `(` (the `/\bkw\s*\(/g` counters). -/
def countKwParenGo (kw : List Char) : Nat → List Char → Nat
  | 0, _ => 0
  | _ + 1, [] => 0
  | fuel + 1, c :: cs =>
    if isWordChar c then
      let run := c :: cs.takeWhile isWordChar
      let rest := cs.dropWhile isWordChar
      let n := countKwParenGo kw fuel rest
      if run = kw && (rest.dropWhile isSpaceChar).head? = some '(' then n + 1
      else n
    else countKwParenGo kw fuel cs

/-- Count over a whole text. -/
def countKwParen (kw : List Char) (l : List Char) : Nat := countKwParenGo kw l.length l

/-- Count of maximal word runs equal to `kw` (the `/\bkw\b/g` counter used
for `else`). -/
def countKwWordGo (kw : List Char) : Nat → List Char → Nat
  | 0, _ => 0
  | _ + 1, [] => 0
  | fuel + 1, c :: cs =>
    if isWordChar c then
      let run := c :: cs.takeWhile isWordChar
      let rest := cs.dropWhile isWordChar
      let n := countKwWordGo kw fuel rest
      if run = kw then n + 1 else n
    else countKwWordGo kw fuel cs

/-- Count over a whole text. -/
def countKwWord (kw : List Char) (l : List Char) : Nat := countKwWordGo kw l.length l

/-- Count of maximal word runs equal to `kw` followed by at least one
whitespace character (the `/\bcase\s+/g` counter). -/
def countKwSpaceGo (kw : List Char) : Nat → List Char → Nat
  | 0, _ => 0
  | _ + 1, [] => 0
  | fuel + 1, c :: cs =>
    if isWordChar c then
      let run := c :: cs.takeWhile isWordChar
      let rest := cs.dropWhile isWordChar
      let n := countKwSpaceGo kw fuel rest
      if run = kw && (match rest.head? with
                      | some d => isSpaceChar d
                      | none => false) then n + 1
      else n
    else countKwSpaceGo kw fuel cs

/-- Count over a whole text. -/
def countKwSpace (kw : List Char) (l : List Char) : Nat := countKwSpaceGo kw l.length l

/-- Count of non-overlapping matches of `/\?[^?.:]/g` (ternary counter). -/
def countTernary : List Char → Nat
  | '?' :: c :: cs =>
    if c = '?' || c = '.' || c = ':' then countTernary (c :: cs)
    else 1 + countTernary cs
  | _ :: cs => countTernary cs
  | [] => 0

/-- Count of non-overlapping matches of `/&&|\|\|/g` (logical operators). -/
def countAndOr : List Char → Nat
  | '&' :: '&' :: cs => 1 + countAndOr cs
  | '|' :: '|' :: cs => 1 + countAndOr cs
  | _ :: cs => countAndOr cs
  | [] => 0

/-- Construct breakdown of a complexity record. -/
structure Breakdown where
  ifC : Nat
  elseC : Nat
  forC : Nat
  whileC : Nat
  switchC : Nat
  caseC : Nat
  catchC : Nat
  ternary : Nat
  logicalOps : Nat
deriving DecidableEq, Repr

/-- Complexity record of one file.  The derived floating-point
`complexityPerLine` field of the source (`+(complexity/lines).toFixed(3)`) is
not modelled. -/
structure CplxRec where
  file : String
  complexity : Nat
  lines : Nat
  breakdown : Breakdown
deriving DecidableEq, Repr

/-- Extension filter of `analyzeComplexity` (`/\.(php|js|jsx|ts|tsx)$/`). -/
def hasComplexityExt (path : String) : Bool :=
  strEndsWith path ".php" || strEndsWith path ".js" || strEndsWith path ".jsx" ||
    strEndsWith path ".ts" || strEndsWith path ".tsx"

/-- Per-file complexity record before the threshold filter. -/
def complexityOf (path : String) (content : List Char) : CplxRec :=
  let ifCount := countKwParen (chars "if") content
  let elseCount := countKwWord (chars "else") content
  let forCount := countKwParen (chars "for") content
  let whileCount := countKwParen (chars "while") content
  let switchCount := countKwParen (chars "switch") content
  let caseCount := countKwSpace (chars "case") content
  let catchCount := countKwParen (chars "catch") content
  let ternaryCount := countTernary content
  let andOrCount := countAndOr content
  { file := path,
    complexity := 1 + ifCount + elseCount + forCount + whileCount +
      switchCount + caseCount + catchCount + ternaryCount + andOrCount,
    lines := (splitNewline content).length,
    breakdown :=
      { ifC := ifCount, elseC := elseCount, forC := forCount,
        whileC := whileCount, switchC := switchCount, caseC := caseCount,
        catchC := catchCount, ternary := ternaryCount,
        logicalOps := andOrCount } }

/-- Model of `CodeQualityLayer.analyzeComplexity`: score each non-empty file
with a code extension, keep the records whose complexity exceeds 10, and
sort descending by complexity (stable, like the V8 sort). -/
def analyzeComplexity (fileContents : List (String × String)) : List CplxRec :=
  (fileContents.filterMap fun pc =>
    if pc.2 = "" || !hasComplexityExt pc.1 then none
    else
      let r := complexityOf pc.1 (chars pc.2)
      if 10 < r.complexity then some r else none).insertionSort
    (fun a b => b.complexity ≤ a.complexity)

/-! Issue assembly (`CodeQualityLayer.process`). -/

/-- Issue record pushed into the flat issue list.  JavaScript spreads the
category record and adds `type`, `severity` and `tag`; fields absent from a
category record are modelled as `none` (where the JavaScript object simply
lacks the key). -/
structure Issue where
  name : String
  typ : String
  severity : String
  tag : String
  file : Option String := none
  line : Option Nat := none
  className : Option String := none
  language : Option String := none
  dynamic : Bool := false
  source : Option String := none
  version : Option String := none
  lines : Option Nat := none
  threshold : Option Nat := none
  description : String := ""
deriving DecidableEq, Repr

/-- Severity rank of the final sort
(`{ critical: 0, warning: 1, info: 2 }` with the `?? 9` fallback). -/
def sevRank (s : String) : Nat :=
  if s = "critical" then 0 else if s = "warning" then 1
  else if s = "info" then 2 else 9

/-- Result record of `CodeQualityLayer.process` (the delta's `codeQuality`
key; the `summary` counts are the lengths of these lists and are not
duplicated here). -/
structure CQResult where
  issues : List Issue
  complexity : List CplxRec
  unusedFunctions : List UnusedEntry
  unusedMethods : List UnusedEntry
  unusedClasses : List UnusedClassEntry
  unusedImports : List UnusedImportEntry
  unusedDependencies : List UnusedDepEntry
  largeFunctions : List LargeFnEntry
  commentedCode : List CommentRec
  hasDynamicLoading : Bool
deriving DecidableEq, Repr

/-- Unsorted issue list built by the seven `forEach` pushes of `process`. -/
def buildIssues (uf um : List UnusedEntry) (uc : List UnusedClassEntry)
    (ui : List UnusedImportEntry) (ud : List UnusedDepEntry)
    (lf : List LargeFnEntry) (cc : List CommentRec) : List Issue :=
  uf.map (fun f =>
    { name := f.name, typ := "unused_function", severity := "warning",
      tag := "never called", file := some f.file, line := some f.line,
      className := f.className, language := some f.language,
      description := f.description }) ++
  um.map (fun f =>
    { name := f.name, typ := "unused_method", severity := "warning",
      tag := "never called", file := some f.file, line := some f.line,
      className := f.className, language := some f.language,
      description := f.description }) ++
  uc.map (fun f =>
    { name := f.name, typ := "unused_class", severity := f.severity,
      tag := if f.dynamic then "possibly dynamic" else "never instantiated",
      file := some f.file, line := some f.line, language := some f.language,
      dynamic := f.dynamic, description := f.description }) ++
  ui.map (fun f =>
    { name := f.name, typ := "unused_import", severity := "info",
      tag := "never used", file := some f.file, line := some f.line,
      source := some f.source, description := f.description }) ++
  ud.map (fun f =>
    { name := f.name, typ := "unused_dependency", severity := "info",
      tag := "not imported", source := some f.source,
      version := some f.version, description := f.description }) ++
  lf.map (fun f =>
    { name := f.name, typ := "large_function",
      severity := if isLenientLanguage f.language then "info" else "warning",
      tag := toString f.lines ++ " lines", file := some f.file,
      line := some f.line, language := some f.language,
      lines := some f.lines, threshold := some f.threshold,
      description := f.description }) ++
  cc.map (fun f =>
    { name := f.name, typ := "commented_code", severity := "info",
      tag := toString f.lines ++ " lines", file := some f.file,
      line := some f.line, lines := some f.lines,
      description := f.description })

/-- Model of `CodeQualityLayer.process`: collect declared symbols and
references, find the unused categories, large functions, commented code and
complexity, build the flat issue list and sort it by severity rank (stable,
like the V8 sort). -/
def processCodeQuality (snap : CQSnapshot) : CQResult :=
  let declared := collectDeclaredSymbols snap.files
  let referenced := collectReferences snap.fileContents
  let hasDynamicLoading := detectDynamicClassLoading snap.fileContents
  let unusedFunctions := findUnusedSymbols declared.functions referenced
  let unusedMethods := findUnusedSymbols declared.methods referenced
  let unusedClasses :=
    findUnusedClasses declared.classes referenced hasDynamicLoading
  let unusedImports := findUnusedImports snap.files snap.fileContents
  let unusedDependencies :=
    findUnusedDependencies snap.dependencies snap.fileContents
  let largeFunctions := findLargeFunctions snap.fileContents snap.files
  let commentedCode := findCommentedCode snap.fileContents
  let complexity := analyzeComplexity snap.fileContents
  { issues :=
      (buildIssues unusedFunctions unusedMethods unusedClasses unusedImports
        unusedDependencies largeFunctions commentedCode).insertionSort
        (fun a b => sevRank a.severity ≤ sevRank b.severity),
    complexity := complexity,
    unusedFunctions := unusedFunctions,
    unusedMethods := unusedMethods,
    unusedClasses := unusedClasses,
    unusedImports := unusedImports,
    unusedDependencies := unusedDependencies,
    largeFunctions := largeFunctions,
    commentedCode := commentedCode,
    hasDynamicLoading := hasDynamicLoading }

/-! Structural extraction for JavaScript files
(`CodeStructureLayer.analyzeJs`: class, method and standalone-function
recovery; the import/export/comment scans, which all require characters
absent from the inputs analysed below, are not needed by the theorems). -/

/-- Match a keyword followed by at least one whitespace character, returning
the text after the whitespace run (the `kw\s+` building block). -/
def skipKwSpace (kw : List Char) (l : List Char) : Option (List Char) :=
  if kw.isPrefixOf l then
    let r := l.drop kw.length
    match r.head? with
    | some c => if isSpaceChar c then some (r.dropWhile isSpaceChar) else none
    | none => none
  else none

/-- Model of `CodeStructureLayer.extractBlock`: starting at an opening brace,
return the brace-balanced block including both braces (or the whole rest of
the text when the block never closes). -/
def extractBlockGo : List Char → Int → List Char → List Char
  | [], _, acc => acc.reverse
  | c :: cs, depth, acc =>
    if c = '{' then extractBlockGo cs (depth + 1) (c :: acc)
    else if c = '}' then
      if depth - 1 = 0 then (c :: acc).reverse
      else extractBlockGo cs (depth - 1) (c :: acc)
    else extractBlockGo cs depth (c :: acc)

/-- Brace-delimited block starting at the head of the list. -/
def extractBlockL (l : List Char) : List Char := extractBlockGo l 0 []

/-- Positional matcher for the class header regex
`/(?:export\s+(?:default\s+)?)?class\s+(\w+)(?:\s+extends\s+(\w+))?\s*\{/g`;
yields the class name, the optional superclass and the suffix starting at
the opening brace. -/
def tryJsClass (l : List Char) : Option (String × Option String × List Char) :=
  let s1 :=
    match skipKwSpace (chars "export") l with
    | some r =>
      match skipKwSpace (chars "default") r with
      | some r2 => r2
      | none => r
    | none => l
  match skipKwSpace (chars "class") s1 with
  | none => none
  | some r =>
    let run := r.takeWhile isWordChar
    if run.isEmpty then none
    else
      let r2 := r.dropWhile isWordChar
      let extPart : Option (String × List Char) :=
        match r2.head? with
        | some c =>
          if isSpaceChar c then
            match skipKwSpace (chars "extends") (r2.dropWhile isSpaceChar) with
            | some r3 =>
              let ext := r3.takeWhile isWordChar
              if ext.isEmpty then none
              else some (String.mk ext, r3.dropWhile isWordChar)
            | none => none
          else none
        | none => none
      let (extName, r4) :=
        match extPart with
        | some (e, rr) => (some e, rr)
        | none => (none, r2)
      match r4.dropWhile isSpaceChar with
      | '{' :: rest => some (String.mk run, extName, '{' :: rest)
      | _ => none

/-- Modifier step of the method regex star `(?:(?:static|async|get|set)\s+)*`. -/
def tryJsModifier (l : List Char) : Option (List Char) :=
  match skipKwSpace (chars "static") l with
  | some r => some r
  | none =>
    match skipKwSpace (chars "async") l with
    | some r => some r
    | none =>
      match skipKwSpace (chars "get") l with
      | some r => some r
      | none => skipKwSpace (chars "set") l

/-- Name-and-parameter-list tail `(\w+)\s*\(([^)]*)\)\s*\{` of the method
regex; yields the name and the suffix after the opening body brace. -/
def tryJsMethodDirect (l : List Char) : Option (String × List Char) :=
  let run := l.takeWhile isWordChar
  if run.isEmpty then none
  else
    match (l.dropWhile isWordChar).dropWhile isSpaceChar with
    | '(' :: r =>
      (match r.dropWhile (· ≠ ')') with
       | ')' :: r2 =>
         (match r2.dropWhile isSpaceChar with
          | '{' :: rest => some (String.mk run, rest)
          | _ => none)
       | _ => none)
    | _ => none

/-- Positional matcher for the JS method regex
`/(?:(?:static|async|get|set)\s+)*(\w+)\s*\(([^)]*)\)\s*\{/g`, with the
greedy-but-backtracking modifier star. -/
def tryJsMethod : Nat → List Char → Option (String × List Char)
  | 0, _ => none
  | fuel + 1, l =>
    match tryJsModifier l with
    | some r =>
      match tryJsMethod fuel r with
      | some hit => some hit
      | none => tryJsMethodDirect l
    | none => tryJsMethodDirect l

/-- Scanner like `scanWith` that also records the match start index. -/
def scanIdx (f : List Char → Option (String × List Char)) :
    Nat → Nat → List Char → List (String × Nat)
  | 0, _, _ => []
  | _ + 1, _, [] => []
  | fuel + 1, pos, c :: cs =>
    match f (c :: cs) with
    | some (nm, rest) =>
      (nm, pos) :: scanIdx f fuel (pos + ((c :: cs).length - rest.length)) rest
    | none => scanIdx f fuel (pos + 1) cs

/-- Model of `CodeStructureLayer.extractJsMethods`: scan the class body for
method headers, skipping the keyword names `if|for|while|switch|catch|function`,
and report `classStartLine`-relative line numbers. -/
def extractJsMethods (classBody : List Char) (classStartLine : Nat) :
    List MethodDecl :=
  (scanIdx (fun s => tryJsMethod s.length s) classBody.length 0
      classBody).filterMap fun hit =>
    if ["if", "for", "while", "switch", "catch", "function"].contains hit.1 then
      none
    else
      some { name := hit.1,
             line := classStartLine + countNl (classBody.take hit.2) }

/-- Class scan of `analyzeJs`: find each class header, extract its
brace-delimited body, and resume the scan after the opening brace. -/
def jsClassScanGo :
    Nat → Nat → List Char → List (String × Option String × Nat × List Char)
  | 0, _, _ => []
  | _ + 1, _, [] => []
  | fuel + 1, pos, c :: cs =>
    match tryJsClass (c :: cs) with
    | some (nm, ext, braceSuffix) =>
      let body := extractBlockL braceSuffix
      let consumed := (c :: cs).length - braceSuffix.length + 1
      (nm, ext, pos, body) ::
        jsClassScanGo fuel (pos + consumed) (braceSuffix.drop 1)
    | none => jsClassScanGo fuel (pos + 1) cs

/-- Classes of a JavaScript file (`analyzeJs`, class extraction section). -/
def analyzeJsClasses (content : List Char) : List ClassDecl :=
  (jsClassScanGo content.length 0 content).map fun hit =>
    let line := 1 + countNl (content.take hit.2.2.1)
    { name := hit.1, line := line,
      methods := extractJsMethods hit.2.2.2 line }

/-- Positional matcher counting one match of `/class\s+\w+[^{]*\{/g`
(used by `isInsideClass`). -/
def tryClassOpen (l : List Char) : Option (String × List Char) :=
  match skipKwSpace (chars "class") l with
  | none => none
  | some r =>
    let run := r.takeWhile isWordChar
    if run.isEmpty then none
    else
      match (r.dropWhile isWordChar).dropWhile (· ≠ '{') with
      | '{' :: rest => some ("", rest)
      | _ => none

/-- Model of `CodeStructureLayer.isInsideClass`: at least one class header
before the position and a positive brace balance. -/
def isInsideClass (textBefore : List Char) : Bool :=
  0 < (runScan tryClassOpen textBefore).length &&
    (textBefore.count '}' : Int) < (textBefore.count '{' : Int)

/-- Positional matcher for the named-function regex
`/(?:export\s+(?:default\s+)?)?(?:async\s+)?function\s+(\w+)\s*\(([^)]*)\)\s*\{/g`. -/
def tryJsFuncDecl (l : List Char) : Option (String × List Char) :=
  let s1 :=
    match skipKwSpace (chars "export") l with
    | some r =>
      match skipKwSpace (chars "default") r with
      | some r2 => r2
      | none => r
    | none => l
  let s2 :=
    match skipKwSpace (chars "async") s1 with
    | some r => r
    | none => s1
  match skipKwSpace (chars "function") s2 with
  | none => none
  | some r => tryJsMethodDirect r

/-- Parameter alternative `(?:\([^)]*\)|(\w+))` of the arrow regex. -/
def tryArrowParams (l : List Char) : Option (List Char) :=
  match l with
  | '(' :: r =>
    (match r.dropWhile (· ≠ ')') with
     | ')' :: r2 => some r2
     | _ => none)
  | _ =>
    let run := l.takeWhile isWordChar
    if run.isEmpty then none else some (l.dropWhile isWordChar)

/-- Positional matcher for the arrow-function regex
`/(?:export\s+)?(?:const|let|var)\s+(\w+)\s*=\s*(?:async\s+)?(?:\([^)]*\)|(\w+))\s*=>/g`. -/
def tryJsArrow (l : List Char) : Option (String × List Char) :=
  let s1 :=
    match skipKwSpace (chars "export") l with
    | some r => r
    | none => l
  let afterKw :=
    match skipKwSpace (chars "const") s1 with
    | some r => some r
    | none =>
      match skipKwSpace (chars "let") s1 with
      | some r => some r
      | none => skipKwSpace (chars "var") s1
  match afterKw with
  | none => none
  | some r =>
    let run := r.takeWhile isWordChar
    if run.isEmpty then none
    else
      match (r.dropWhile isWordChar).dropWhile isSpaceChar with
      | '=' :: r2 =>
        let r3 := r2.dropWhile isSpaceChar
        let tailAt : List Char → Option (List Char) := fun params =>
          match tryArrowParams params with
          | some r4 =>
            (match r4.dropWhile isSpaceChar with
             | '=' :: '>' :: rest => some rest
             | _ => none)
          | none => none
        let viaAsync :=
          match skipKwSpace (chars "async") r3 with
          | some r4 => tailAt r4
          | none => none
        (match viaAsync with
         | some rest => some (String.mk run, rest)
         | none =>
           match tailAt r3 with
           | some rest => some (String.mk run, rest)
           | none => none)
      | _ => none

/-- Standalone functions of a JavaScript file (`analyzeJs`, function
extraction section): named declarations then arrow functions, each dropped
when its position lies inside a class body. -/
def analyzeJsFunctions (content : List Char) : List FuncDecl :=
  ((scanIdx tryJsFuncDecl content.length 0 content).filterMap fun hit =>
    if isInsideClass (content.take hit.2) then none
    else some { name := hit.1, line := 1 + countNl (content.take hit.2) }) ++
  ((scanIdx tryJsArrow content.length 0 content).filterMap fun hit =>
    if isInsideClass (content.take hit.2) then none
    else some { name := hit.1, line := 1 + countNl (content.take hit.2) })

/-- Language tag assigned by `analyzeJs` (`/\.tsx?$/`). -/
def jsLanguageOf (path : String) : String :=
  if strEndsWith path ".ts" || strEndsWith path ".tsx" then "typescript"
  else "javascript"

/-! Pipeline engine (`AnalysisEngine.analyze` with its helpers `deepClone`,
`deepFreeze`, `deepMerge`, `stripInternal`).  States, snapshots, deltas and
reports are JSON-like values; `Date.now()` is modelled by a clock function
indexed by the call number. -/

mutual
/-- JSON-like value (the shape of engine state, deltas and reports). -/
inductive Json where
  | null : Json
  | bool : Bool → Json
  | num : Int → Json
  | str : String → Json
  | arr : JsonArr → Json
  | obj : JsonObj → Json
/-- Array of JSON values. -/
inductive JsonArr where
  | nil : JsonArr
  | cons : Json → JsonArr → JsonArr
/-- Object: ordered key/value fields (JavaScript objects preserve insertion
order; keys are unique in every object the engine builds). -/
inductive JsonObj where
  | nil : JsonObj
  | cons : String → Json → JsonObj → JsonObj
end

deriving instance DecidableEq for Json
deriving instance Repr for Json

mutual
/-- Model of the engine's `deepClone`: primitives are returned as-is, arrays
are mapped, objects are rebuilt key by key. -/
def deepClone : Json → Json
  | .null => .null
  | .bool b => .bool b
  | .num n => .num n
  | .str s => .str s
  | .arr xs => .arr (deepCloneArr xs)
  | .obj kvs => .obj (deepCloneObj kvs)
/-- Clone of every array element. -/
def deepCloneArr : JsonArr → JsonArr
  | .nil => .nil
  | .cons v rest => .cons (deepClone v) (deepCloneArr rest)
/-- Clone of every object field. -/
def deepCloneObj : JsonObj → JsonObj
  | .nil => .nil
  | .cons k v rest => .cons k (deepClone v) (deepCloneObj rest)
end

/-- Model of the engine's `deepFreeze`: freezing write-protects the object
graph at runtime but returns the same value, so on pure values it is the
identity. -/
def deepFreeze (j : Json) : Json := j

/-- Object field lookup (`target[key]`). -/
def objGet : JsonObj → String → Option Json
  | .nil, _ => none
  | .cons k' v rest, k => if k' = k then some v else objGet rest k

/-- Object field assignment (`output[key] = v`): replaces the value in place
when the key exists, appends otherwise (JavaScript property order). -/
def objSet : JsonObj → String → Json → JsonObj
  | .nil, k, v => .cons k v .nil
  | .cons k' v' rest, k, v =>
    if k' = k then .cons k' v rest else .cons k' v' (objSet rest k v)

/-- Object-level `deepMerge` loop: for each source field, recurse when both
sides hold (non-array) objects, otherwise assign the source value. -/
def deepMergeObj (t : JsonObj) : JsonObj → JsonObj
  | .nil => t
  | .cons k sv rest =>
    deepMergeObj
      (objSet t k
        (match sv, objGet t k with
         | .obj so, some (.obj tObj) => .obj (deepMergeObj tObj so)
         | _, _ => sv))
      rest

/-- Model of the engine's `deepMerge` (the engine only ever merges object
states with object deltas; on other shapes the source value wins, as in the
`else` branch of the loop body). -/
def deepMerge : Json → Json → Json
  | .obj t, .obj s => .obj (deepMergeObj t s)
  | _, s => s

/-- Value assigned for one source field of `deepMerge`: the recursive merge
when both sides hold objects, the source value otherwise. -/
def mergeVal (t : JsonObj) (k : String) (sv : Json) : Json :=
  match sv, objGet t k with
  | .obj so, some (.obj tObj) => .obj (deepMergeObj tObj so)
  | _, _ => sv

mutual
/-- Model of the engine's `stripInternal`: removes every object key starting
with an underscore, recursively. -/
def stripInternal : Json → Json
  | .null => .null
  | .bool b => .bool b
  | .num n => .num n
  | .str s => .str s
  | .arr xs => .arr (stripInternalArr xs)
  | .obj kvs => .obj (stripInternalObj kvs)
/-- Strip of every array element. -/
def stripInternalArr : JsonArr → JsonArr
  | .nil => .nil
  | .cons v rest => .cons (stripInternal v) (stripInternalArr rest)
/-- Strip of every object field, dropping underscore-prefixed keys. -/
def stripInternalObj : JsonObj → JsonObj
  | .nil => .nil
  | .cons k v rest =>
    if strStartsWith k "_" then stripInternalObj rest
    else .cons k (stripInternal v) (stripInternalObj rest)
end

/-- Registered analysis layer: a name and a processing function from the
snapshot to a delta, which may fail (a thrown error is an `Except.error`). -/
structure LayerM where
  name : String
  proc : Json → Except String Json

/-- Project configuration fields the engine reads. -/
structure ProjCfg where
  id : Int
  name : String

/-- Append to a JSON array (`array.push`). -/
def arrAppend : JsonArr → Json → JsonArr
  | .nil, v => .cons v .nil
  | .cons x rest, v => .cons x (arrAppend rest v)

/-- The `layersExecuted` entry recorded after a layer runs: name, duration,
status, and the error message on failure. -/
def execEntry (nm : String) (d : Int) (status : String) (err : Option String) :
    Json :=
  .obj (.cons "name" (.str nm) (.cons "durationMs" (.num d)
    (.cons "status" (.str status)
      (match err with
       | some e => .cons "error" (.str e) .nil
       | none => .nil))))

/-- Model of `state.meta.layersExecuted.push(entry)` (a no-op on states whose
meta tree does not have the engine-built shape — the engine always builds
it). -/
def pushExec (st : Json) (entry : Json) : Json :=
  match st with
  | .obj kvs =>
    match objGet kvs "meta" with
    | some (.obj m) =>
      match objGet m "layersExecuted" with
      | some (.arr xs) =>
        .obj (objSet kvs "meta"
          (.obj (objSet m "layersExecuted" (.arr (arrAppend xs entry)))))
      | _ => st
    | _ => st
  | _ => st

/-- Initial engine state: the `meta` object with project identity, the
ISO-rendered analysis start time (modelled by the numbered clock), the
version tag and the empty `layersExecuted` list. -/
def initState (cfg : ProjCfg) (t1 : Int) : Json :=
  .obj (.cons "meta"
    (.obj (.cons "projectId" (.num cfg.id)
      (.cons "projectName" (.str cfg.name)
        (.cons "analyzedAt" (.str (toString t1))
          (.cons "version" (.str "1.0.0")
            (.cons "layersExecuted" (.arr .nil) .nil)))))) .nil)

/-- The per-layer loop of `AnalysisEngine.analyze`: snapshot the state with
`deepFreeze(deepClone(state))`, run the layer, merge an object delta on
success, and record the layer's entry; on failure record a failed entry and
continue with the state unchanged.  The counter numbers the `Date.now()`
calls (two per layer). -/
def runLayers (clock : Nat → Int) :
    List LayerM → Json → Nat → Json
  | [], st, _ => st
  | l :: rest, st, n =>
    let snapshot := deepFreeze (deepClone st)
    match l.proc snapshot with
    | .ok delta =>
      let st1 := match delta with
        | .obj _ => deepMerge st delta
        | _ => st
      let st2 := pushExec st1
        (execEntry l.name (clock (n + 1) - clock n) "completed" none)
      runLayers clock rest st2 (n + 2)
    | .error e =>
      let st2 := pushExec st
        (execEntry l.name (clock (n + 1) - clock n) "failed" (some e))
      runLayers clock rest st2 (n + 2)

/-- Model of `state.meta.durationMs = Date.now() - startTime`. -/
def setMetaDuration (st : Json) (d : Int) : Json :=
  match st with
  | .obj kvs =>
    match objGet kvs "meta" with
    | some (.obj m) =>
      .obj (objSet kvs "meta" (.obj (objSet m "durationMs" (.num d))))
    | _ => st
  | _ => st

/-- Model of `AnalysisEngine.analyze`: run all layers over the initial state
and return the final state with internal (underscore-prefixed) keys
stripped.  The function is total: no layer failure escapes the loop. -/
def analyze (clock : Nat → Int) (cfg : ProjCfg) (layers : List LayerM) :
    Json :=
  let st0 := initState cfg (clock 1)
  let stF := runLayers clock layers st0 2
  stripInternal
    (setMetaDuration stF (clock (2 + 2 * layers.length) - clock 0))

/-- Top-level key lookup on a report. -/
def jLookup (k : String) (j : Json) : Option Json :=
  match j with
  | .obj kvs => objGet kvs k
  | _ => none

/-- Object fields with the value under the `meta` key replaced by `null`
(used to compare engine states up to their clock-dependent metadata). -/
def maskMetaObj : JsonObj → JsonObj
  | .nil => .nil
  | .cons k v rest =>
    .cons k (if k = "meta" then .null else v) (maskMetaObj rest)

/-- State with its top-level metadata masked out. -/
def maskMeta : Json → Json
  | .obj kvs => .obj (maskMetaObj kvs)
  | j => j

/-- Specification variant of the layer loop in which each layer is applied
directly to the cumulative state (no snapshot copy): the state after N
stages as a fold of `deepMerge` over the returned deltas. -/
def runLayersSpec (clock : Nat → Int) :
    List LayerM → Json → Nat → Json
  | [], st, _ => st
  | l :: rest, st, n =>
    match l.proc st with
    | .ok delta =>
      let st1 := match delta with
        | .obj _ => deepMerge st delta
        | _ => st
      let st2 := pushExec st1
        (execEntry l.name (clock (n + 1) - clock n) "completed" none)
      runLayersSpec clock rest st2 (n + 2)
    | .error e =>
      let st2 := pushExec st
        (execEntry l.name (clock (n + 1) - clock n) "failed" (some e))
      runLayersSpec clock rest st2 (n + 2)

/-! Line-classification predicates of the comment scanner (used to state the
dead-comment theorems), and the concrete inputs referenced by the claim
theorems below. -/

/-- A line the scanner counts as a single-line comment when no block comment
is open: its trimmed text starts with `//`, or with `#` but not `#!`. -/
def lineCommentOnly (l : List Char) : Bool :=
  startsWithSeq (chars "//") (jsTrim l) ||
    (startsWithSeq (chars "#") (jsTrim l) &&
      !startsWithSeq (chars "#!") (jsTrim l))

/-- A line the scanner treats as a non-comment when no block comment is open:
its trimmed text starts with none of `/*`, `//`, `#`. -/
def neutralLine (l : List Char) : Bool :=
  !startsWithSeq (chars "/*") (jsTrim l) &&
    !startsWithSeq (chars "//") (jsTrim l) &&
    !startsWithSeq (chars "#") (jsTrim l)

/-- C2 failing input: a single JavaScript file declaring `orphan`, whose name
occurs nowhere outside its own declaration header. -/
def snapC2 : CQSnapshot :=
  { fileContents := [("lib.js", "function orphan() \x7b\x7d")],
    files := [{ path := "lib.js", language := "javascript",
                functions := [{ name := "orphan", line := 1 }] }] }

/-- C3 failing input: `ob.js` is flagged obfuscated by the file-system layer;
its content carries a reference to `helperFn` (declared in `lib.js` and
otherwise unreferenced), an 8-line comment run, and eleven `if(` sites. -/
def obContent : String :=
  String.intercalate "\n" ("helperFn()" :: List.replicate 8 "// junk" ++
    [String.intercalate " " (List.replicate 11 "if(")])

/-- C3 failing snapshot. -/
def snapC3 : CQSnapshot :=
  { fileContents :=
      [("ob.js", obContent), ("lib.js", "const helperFn = () => 1")],
    files := [{ path := "lib.js", language := "javascript",
                functions := [{ name := "helperFn", line := 1 }] }],
    fsFiles := [{ path := "ob.js", obfuscated := true },
                { path := "lib.js", obfuscated := false }] }

/-- C4 scenario input from the specification. -/
def c4content : String := "class Foo \x7b function bar()\x7b\x7d \x7d"

/-- C4 snapshot: the scenario file together with its structural extraction. -/
def snapC4 : CQSnapshot :=
  { fileContents := [("test.js", c4content)],
    files := [{ path := "test.js", language := jsLanguageOf "test.js",
                classes := analyzeJsClasses (chars c4content),
                functions := analyzeJsFunctions (chars c4content) }] }

/-- C5 input: a PHP project with a dynamic-instantiation signal
(`new $c(...)`) and an otherwise-unreferenced class `Orphan`. -/
def snapC5 : CQSnapshot :=
  { fileContents := [("a.php", "new $c();\nclass Orphan \x7b\x7d")],
    files := [{ path := "a.php", language := "php",
                classes := [{ name := "Orphan", line := 2, methods := [] }] }] }

/-- C6 counterexample lines: a contiguous run of exactly eight comment lines
that opens with `//` but contains a doc-style block comment in its middle. -/
def linesC6 : List String :=
  ["x", "// a", "// b", "/** c", "* d", "* e", "* f", "* g", "*/", "x"]

/-- C7 scenario content: twelve `if(`, three `for(`, two logical operators,
and no other counted construct. -/
def scenarioC7 : String :=
  String.intercalate " " (List.replicate 12 "if(") ++ " " ++
    String.intercalate " " (List.replicate 3 "for(") ++ " a && b && c"

/-- C8 failing input: a 103-line JavaScript function, exceeding the
JavaScript large-function threshold of 100. -/
def bigContent : String :=
  String.intercalate "\n"
    ("function big()\x7b" :: (List.replicate 101 "x" ++ ["\x7d"]))

/-- C8 snapshot. -/
def snapC8 : CQSnapshot :=
  { fileContents := [("a.js", bigContent)],
    files := [{ path := "a.js", language := "javascript",
                functions := [{ name := "big", line := 1 }] }] }

/-- C1 counterexample: the first (file-system) layer fails its root-path
precondition exactly as `FileSystemLayer.process` does on a missing root. -/
def fsFailLayer : LayerM :=
  { name := "file-system",
    proc := fun _ => .error "Root path does not exist: /missing" }

/-- A later stage that contributes a delta. -/
def stubLayer : LayerM :=
  { name := "stub", proc := fun _ => .ok (.obj (.cons "stub" (.num 1) .nil)) }

/-- Concrete project configuration for the engine theorems. -/
def cfgC1 : ProjCfg := { id := 1, name := "p" }

/-! Claim theorems. -/

set_option maxRecDepth 40000

/-- C2, failing input evaluated: the declared function `orphan` occurs
nowhere outside its declaration header `function orphan(`, yet the reference
scan captures the header itself (the `\b(\w+)\s*\(` scan has no
declaration-keyword exclusion), so the name is considered referenced and the
issue list contains no `unused_function` issue — the claim requires exactly
one. -/
theorem c2_declaration_header_counts_as_reference :
    collectReferences snapC2.fileContents = ["orphan"] ∧
    (processCodeQuality snapC2).unusedFunctions = [] ∧
    (processCodeQuality snapC2).issues = [] :=
  ⟨rfl, rfl, rfl⟩

/-- C3, failing input evaluated: `ob.js` is flagged obfuscated in the
file-system listing, yet the quality stage still (1) counts its `helperFn()`
text as a reference, so the otherwise-unreferenced `helperFn` is not
reported, (2) reports its 8-line comment run, and (3) scores it in the
complexity table — none of `collectReferences`, `findCommentedCode`,
`analyzeComplexity` consults the obfuscated flag. -/
theorem c3_obfuscated_content_still_scanned :
    (snapC3.fsFiles.filter (·.obfuscated)).map (·.path) = ["ob.js"] ∧
    (processCodeQuality snapC3).unusedFunctions = [] ∧
    (processCodeQuality snapC3).complexity.map (·.file) = ["ob.js"] ∧
    (processCodeQuality snapC3).commentedCode.map (·.file) = ["ob.js"] :=
  ⟨rfl, rfl, rfl, rfl⟩

/-- C4, scenario evaluated: structural extraction of
`class Foo { function bar(){} }` does report exactly one class `Foo` with
method `bar` and no standalone function, but quality analysis emits only the
`unused_class Foo` issue — `bar` is counted as referenced by its own
declaration header `bar(`, so the claimed `unused_method bar` issue is
missing. -/
theorem c4_scenario_reports_single_issue :
    analyzeJsClasses (chars c4content) =
      [{ name := "Foo", line := 1, methods := [{ name := "bar", line := 1 }] }] ∧
    analyzeJsFunctions (chars c4content) = [] ∧
    (processCodeQuality snapC4).issues.map (fun i => (i.typ, i.name, i.severity)) =
      [("unused_class", "Foo", "warning")] :=
  ⟨rfl, rfl, rfl⟩

/-- C5, counterexample: with a dynamic-instantiation signal present, the
unreferenced PHP class `Orphan` is reported with severity `info` and dynamic
flag set, but its tag field is the string `possibly dynamic`, not `dynamic`
as the claim states. -/
theorem c5_counterexample_tag :
    (processCodeQuality snapC5).issues.map
        (fun i => (i.typ, i.name, i.severity, i.tag, i.dynamic)) =
      [("unused_class", "Orphan", "info", "possibly dynamic", true)] ∧
    ∀ i ∈ (processCodeQuality snapC5).issues, i.tag ≠ "dynamic" :=
  ⟨rfl, by decide⟩

/-- C6, counterexample: `linesC6` holds a contiguous run of exactly eight
comment lines (lines 2–9) that opens with the line comment `// a` — not with
a doc-style block delimiter — but contains a `/**` opener in its middle; the
scanner sets its doc flag there and suppresses the whole run, so nothing is
reported even though the claim requires one record with `lines = 8`. -/
theorem c6_counterexample_mid_run_doc :
    splitNewline (chars (String.intercalate "\n" linesC6)) = linesC6.map chars ∧
    lineCommentOnly (chars "// a") = true ∧
    startsWithSeq (chars "/**") (jsTrim (chars "// a")) = false ∧
    findCommentedCode [("t.js", String.intercalate "\n" linesC6)] = [] :=
  ⟨rfl, rfl, rfl, rfl⟩

/-- C8, counterexample: the 103-line function `big` produces an issue of
kind `large_function`, which is outside the claim's six-element kind set. -/
theorem c8_counterexample_large_function :
    (processCodeQuality snapC8).issues.map (fun i => (i.typ, i.severity)) =
      [("large_function", "info")] ∧
    ("large_function" : String) ∉
      ["unused_function", "unused_method", "unused_class", "unused_import",
       "unused_dependency", "commented_code"] :=
  ⟨rfl, by decide⟩

/-- C1, counterexample: with the first layer failing its root-path
precondition, `analyze` does not raise; it returns a report that records the
failure in `meta.layersExecuted` and still contains the later stage's
contribution (`stub`), i.e. a partial report built from the remaining stages
is returned. -/
theorem c1_counterexample_no_abort :
    jLookup "stub" (analyze (fun _ => 0) cfgC1 [fsFailLayer, stubLayer]) =
      some (.num 1) ∧
    jLookup "meta" (analyze (fun _ => 0) cfgC1 [fsFailLayer, stubLayer]) =
      some (.obj (.cons "projectId" (.num 1)
        (.cons "projectName" (.str "p")
          (.cons "analyzedAt" (.str "0")
            (.cons "version" (.str "1.0.0")
              (.cons "layersExecuted"
                (.arr (.cons
                  (.obj (.cons "name" (.str "file-system")
                    (.cons "durationMs" (.num 0)
                      (.cons "status" (.str "failed")
                        (.cons "error"
                          (.str "Root path does not exist: /missing") .nil)))))
                  (.cons
                    (.obj (.cons "name" (.str "stub")
                      (.cons "durationMs" (.num 0)
                        (.cons "status" (.str "completed") .nil))))
                    .nil)))
                (.cons "durationMs" (.num 0) .nil))))))) :=
  ⟨rfl, rfl⟩

mutual
/-- Structural copy identity: the engine's deep clone returns a value equal
to its input. -/
theorem deepClone_eq : (j : Json) → deepClone j = j
  | .null => rfl
  | .bool _ => rfl
  | .num _ => rfl
  | .str _ => rfl
  | .arr xs => by simp only [deepClone, deepCloneArr_eq xs]
  | .obj kvs => by simp only [deepClone, deepCloneObj_eq kvs]
/-- Clone identity on arrays. -/
theorem deepCloneArr_eq : (xs : JsonArr) → deepCloneArr xs = xs
  | .nil => rfl
  | .cons v rest => by
    simp only [deepCloneArr, deepClone_eq v, deepCloneArr_eq rest]
/-- Clone identity on objects. -/
theorem deepCloneObj_eq : (kvs : JsonObj) → deepCloneObj kvs = kvs
  | .nil => rfl
  | .cons k v rest => by
    simp only [deepCloneObj, deepClone_eq v, deepCloneObj_eq rest]
end

/-- C9: every stage is invoked on `deepFreeze (deepClone state)`, and since
the deep clone is a structural copy equal in value to the state (and
freezing does not change the value), the engine loop coincides with its
specification `runLayersSpec`, in which each stage is applied directly to
the cumulative state and the state after N stages is exactly the fold of
`deepMerge` over the successfully returned deltas starting from the initial
state: no stage invocation can change what earlier stages accumulated. -/
theorem c9_state_is_fold_of_deltas (clock : Nat → Int) (layers : List LayerM)
    (st : Json) (n : Nat) :
    runLayers clock layers st n = runLayersSpec clock layers st n := by
  induction layers generalizing st n with
  | nil => rfl
  | cons l rest ih =>
    simp only [runLayers, runLayersSpec, deepFreeze, deepClone_eq]
    cases h : l.proc st with
    | ok delta => cases delta <;> simp [ih]
    | error e => simp [ih]

/-- C1 (amended): a root-path precondition failure in the first layer does
not abort the run; the engine catches it like any other stage failure,
records a failed `layersExecuted` entry with the error text, leaves the
state otherwise unchanged, proceeds with the remaining layers, and still
produces the (partial) stripped report. -/
theorem c1_first_layer_failure_is_caught (clock : Nat → Int) (cfg : ProjCfg)
    (l1 : LayerM) (rest : List LayerM) (e : String)
    (h : ∀ s, l1.proc s = .error e) :
    (∀ st n, runLayers clock (l1 :: rest) st n =
      runLayers clock rest
        (pushExec st
          (execEntry l1.name (clock (n + 1) - clock n) "failed" (some e)))
        (n + 2)) ∧
    analyze clock cfg (l1 :: rest) =
      stripInternal (setMetaDuration
        (runLayers clock rest
          (pushExec (initState cfg (clock 1))
            (execEntry l1.name (clock 3 - clock 2) "failed" (some e))) 4)
        (clock (2 + 2 * (l1 :: rest).length) - clock 0)) := by
  constructor
  · intro st n
    simp only [runLayers, deepFreeze, h]
  · simp only [analyze, runLayers, deepFreeze, h]

/-- C1 witness: the amended behaviour at the concrete failing file-system
layer followed by a later stage. -/
theorem c1_witness :
    analyze (fun _ => 0) cfgC1 (fsFailLayer :: [stubLayer]) =
      stripInternal (setMetaDuration
        (runLayers (fun _ => 0) [stubLayer]
          (pushExec (initState cfgC1 ((fun (_ : Nat) => (0 : Int)) 1))
            (execEntry fsFailLayer.name
              ((fun (_ : Nat) => (0 : Int)) 3 - (fun (_ : Nat) => (0 : Int)) 2)
              "failed" (some "Root path does not exist: /missing"))) 4)
        ((fun (_ : Nat) => (0 : Int)) (2 + 2 * ([fsFailLayer, stubLayer]).length) -
          (fun (_ : Nat) => (0 : Int)) 0)) :=
  (c1_first_layer_failure_is_caught (fun _ => 0) cfgC1 fsFailLayer [stubLayer]
    "Root path does not exist: /missing" (fun _ => rfl)).2

/-- Masked objects agree on lookups of every key other than `meta`. -/
theorem maskObjGet : {t₁ t₂ : JsonObj} → maskMetaObj t₁ = maskMetaObj t₂ →
    {k : String} → k ≠ "meta" → objGet t₁ k = objGet t₂ k
  | .nil, .nil, _, _, _ => rfl
  | .nil, .cons _ _ _, h, _, _ => JsonObj.noConfusion h
  | .cons _ _ _, .nil, h, _, _ => JsonObj.noConfusion h
  | .cons k1 v1 r1, .cons k2 v2 r2, h, k, hk => by
    simp only [maskMetaObj, JsonObj.cons.injEq] at h
    obtain ⟨hkk, hv, hr⟩ := h
    subst hkk
    simp only [objGet]
    by_cases hkey : k1 = k
    · subst hkey
      rw [if_neg hk, if_neg hk] at hv
      simp [hv]
    · simp [hkey, maskObjGet hr hk]

/-- Assignment preserves mask equality (values at the `meta` key are masked
anyway; other keys require equal values). -/
theorem maskObjSet : {t₁ t₂ : JsonObj} → maskMetaObj t₁ = maskMetaObj t₂ →
    (k : String) → {v₁ v₂ : Json} → (k ≠ "meta" → v₁ = v₂) →
    maskMetaObj (objSet t₁ k v₁) = maskMetaObj (objSet t₂ k v₂)
  | .nil, .nil, _, k, v₁, v₂, hv => by
    simp only [objSet, maskMetaObj]
    by_cases hk : k = "meta"
    · simp [hk]
    · simp [hk, hv hk]
  | .nil, .cons _ _ _, h, _, _, _, _ => JsonObj.noConfusion h
  | .cons _ _ _, .nil, h, _, _, _, _ => JsonObj.noConfusion h
  | .cons k1 v1' r1, .cons k2 v2' r2, h, k, v₁, v₂, hv => by
    simp only [maskMetaObj, JsonObj.cons.injEq] at h
    obtain ⟨hkk, hval, hr⟩ := h
    subst hkk
    simp only [objSet]
    by_cases hkey : k1 = k
    · subst hkey
      simp only [if_pos rfl, maskMetaObj]
      rw [hr]
      by_cases hk : k1 = "meta"
      · rw [if_pos hk, if_pos hk]
      · rw [if_neg hk, if_neg hk, hv hk]
    · simp only [if_neg hkey, maskMetaObj]
      rw [hval, maskObjSet hr k hv]

/-- Unfolding of one step of the object merge loop. -/
theorem deepMergeObj_cons (t : JsonObj) (k : String) (sv : Json)
    (rest : JsonObj) :
    deepMergeObj t (.cons k sv rest) =
      deepMergeObj (objSet t k (mergeVal t k sv)) rest := by
  rw [deepMergeObj.eq_def]
  rfl

/-- Merging the same delta into mask-equal objects yields mask-equal
objects. -/
theorem maskMergeObj : {t₁ t₂ : JsonObj} → maskMetaObj t₁ = maskMetaObj t₂ →
    (s : JsonObj) →
    maskMetaObj (deepMergeObj t₁ s) = maskMetaObj (deepMergeObj t₂ s)
  | _, _, h, .nil => by simpa [deepMergeObj] using h
  | t₁, t₂, h, .cons k sv rest => by
    rw [deepMergeObj_cons, deepMergeObj_cons]
    apply maskMergeObj _ rest
    by_cases hk : k = "meta"
    · subst hk
      exact maskObjSet h "meta" (fun hne => absurd rfl hne)
    · have hval : mergeVal t₁ k sv = mergeVal t₂ k sv := by
        unfold mergeVal
        rw [maskObjGet h hk]
      exact maskObjSet h k (fun _ => hval)

/-- Merging the same delta into mask-equal states yields mask-equal
states. -/
theorem maskMerge {s₁ s₂ : Json} (h : maskMeta s₁ = maskMeta s₂) (d : Json) :
    maskMeta (deepMerge s₁ d) = maskMeta (deepMerge s₂ d) := by
  cases s₁ <;> cases s₂ <;>
    first
      | exact Json.noConfusion h
      | (cases d <;>
          first
            | rfl
            | (simp only [deepMerge, maskMeta, Json.obj.injEq] at h ⊢
               exact maskMergeObj h _))

/-- Assignment at the existing key `meta` leaves the mask unchanged. -/
theorem maskObjSet_meta_existing : {kvs : JsonObj} → {w : Json} →
    objGet kvs "meta" = some w → (v : Json) →
    maskMetaObj (objSet kvs "meta" v) = maskMetaObj kvs
  | .nil, _, hget, _ => by simp [objGet] at hget
  | .cons k1 v1 r1, w, hget, v => by
    simp only [objGet] at hget
    simp only [objSet]
    by_cases hkey : k1 = "meta"
    · simp [hkey, maskMetaObj]
    · rw [if_neg hkey] at hget
      simp only [if_neg hkey, maskMetaObj, maskObjSet_meta_existing hget v]

/-- Recording a `layersExecuted` entry does not change the masked state. -/
theorem maskPushExec (st entry : Json) :
    maskMeta (pushExec st entry) = maskMeta st := by
  cases st with
  | obj kvs =>
    simp only [pushExec]
    cases hget : objGet kvs "meta" with
    | none => rfl
    | some w =>
      cases w with
      | obj m =>
        dsimp only
        cases objGet m "layersExecuted" with
        | none => rfl
        | some a =>
          cases a <;>
            simp [maskMeta, maskObjSet_meta_existing hget]
      | null => rfl
      | bool _ => rfl
      | num _ => rfl
      | str _ => rfl
      | arr _ => rfl
  | null => rfl
  | bool _ => rfl
  | num _ => rfl
  | str _ => rfl
  | arr _ => rfl

/-- Writing the run duration does not change the masked state. -/
theorem maskSetMetaDuration (st : Json) (d : Int) :
    maskMeta (setMetaDuration st d) = maskMeta st := by
  cases st with
  | obj kvs =>
    simp only [setMetaDuration]
    cases hget : objGet kvs "meta" with
    | none => rfl
    | some w =>
      cases w <;> simp [maskMeta, maskObjSet_meta_existing hget]
  | null => rfl
  | bool _ => rfl
  | num _ => rfl
  | str _ => rfl
  | arr _ => rfl

/-- Mask-equal states agree on every top-level key other than `meta`. -/
theorem maskLookup {s₁ s₂ : Json} (h : maskMeta s₁ = maskMeta s₂)
    {k : String} (hk : k ≠ "meta") : jLookup k s₁ = jLookup k s₂ := by
  cases s₁ <;> cases s₂ <;>
    first
      | rfl
      | exact Json.noConfusion h
      | (simp only [maskMeta, Json.obj.injEq] at h
         simp only [jLookup]
         exact maskObjGet h hk)

/-- Lookup through `stripInternal` on objects. -/
theorem objGet_stripObj : (kvs : JsonObj) → (k : String) →
    objGet (stripInternalObj kvs) k =
      if strStartsWith k "_" then none else (objGet kvs k).map stripInternal
  | .nil, k => by
    simp only [stripInternalObj, objGet, Option.map_none']
    split <;> rfl
  | .cons k1 v1 r1, k => by
    simp only [stripInternalObj]
    by_cases hu : strStartsWith k1 "_"
    · rw [if_pos hu, objGet_stripObj r1 k]
      by_cases hkey : k1 = k
      · subst hkey
        simp [objGet, hu]
      · simp [objGet, hkey]
    · rw [if_neg hu]
      simp only [objGet]
      by_cases hkey : k1 = k
      · subst hkey
        simp [hu]
      · simp [hkey, objGet_stripObj r1 k]

/-- Lookup through `stripInternal`. -/
theorem jLookup_strip (k : String) (s : Json) :
    jLookup k (stripInternal s) =
      if strStartsWith k "_" then none else (jLookup k s).map stripInternal := by
  cases s <;> simp only [stripInternal, jLookup, objGet_stripObj] <;> split <;> rfl

/-- Layer loop invariant: if every registered layer's output depends only on
the non-meta part of the snapshot, then runs from mask-equal states under
different clocks end in mask-equal states. -/
theorem runLayers_maskEq (c₁ c₂ : Nat → Int) (layers : List LayerM)
    (hl : ∀ l ∈ layers, ∀ s₁ s₂ : Json,
      maskMeta s₁ = maskMeta s₂ → l.proc s₁ = l.proc s₂)
    {st₁ st₂ : Json} (h : maskMeta st₁ = maskMeta st₂) (n₁ n₂ : Nat) :
    maskMeta (runLayers c₁ layers st₁ n₁) =
      maskMeta (runLayers c₂ layers st₂ n₂) := by
  induction layers generalizing st₁ st₂ n₁ n₂ with
  | nil => simpa [runLayers] using h
  | cons l rest ih =>
    have hproc : l.proc st₁ = l.proc st₂ :=
      hl l (List.mem_cons_self l rest) st₁ st₂ h
    have hrest : ∀ l' ∈ rest, ∀ s₁ s₂ : Json,
        maskMeta s₁ = maskMeta s₂ → l'.proc s₁ = l'.proc s₂ :=
      fun l' hm => hl l' (List.mem_cons_of_mem l hm)
    simp only [runLayers, deepFreeze, deepClone_eq]
    rw [hproc]
    cases hp : l.proc st₂ with
    | ok delta =>
      apply ih hrest
      rw [maskPushExec, maskPushExec]
      cases delta <;> first | exact h | exact maskMerge h _
    | error e =>
      apply ih hrest
      rw [maskPushExec, maskPushExec]
      exact h

/-- C10: for layers whose outputs depend only on the non-meta part of their
snapshot (as all analysis layers do — they read file contents and prior
deltas, not run metadata), every non-meta key of the report — in particular
`codeQuality` with its issue list, complexity table and scores — is
identical across runs with different clocks; the quality output is a
deterministic function of the analysed input. -/
theorem c10_report_clock_independent (cfg : ProjCfg) (layers : List LayerM)
    (c₁ c₂ : Nat → Int) (k : String)
    (hl : ∀ l ∈ layers, ∀ s₁ s₂ : Json,
      maskMeta s₁ = maskMeta s₂ → l.proc s₁ = l.proc s₂)
    (hk : k ≠ "meta") :
    jLookup k (analyze c₁ cfg layers) = jLookup k (analyze c₂ cfg layers) := by
  have hinit : maskMeta (initState cfg (c₁ 1)) = maskMeta (initState cfg (c₂ 1)) := by
    simp [initState, maskMeta, maskMetaObj]
  have hfin := runLayers_maskEq c₁ c₂ layers hl hinit 2 2
  have hmask :
      maskMeta (setMetaDuration (runLayers c₁ layers (initState cfg (c₁ 1)) 2)
        (c₁ (2 + 2 * layers.length) - c₁ 0)) =
      maskMeta (setMetaDuration (runLayers c₂ layers (initState cfg (c₂ 1)) 2)
        (c₂ (2 + 2 * layers.length) - c₂ 0)) := by
    rw [maskSetMetaDuration, maskSetMetaDuration]
    exact hfin
  have hlook := maskLookup hmask hk
  simp only [analyze]
  rw [jLookup_strip, jLookup_strip, hlook]

/-- C10 witness: reports of the single-stage pipeline under two different
clocks agree at the non-meta key `stub`. -/
theorem c10_witness :
    jLookup "stub" (analyze (fun _ => 0) cfgC1 [stubLayer]) =
      jLookup "stub" (analyze (fun n => (n : Int)) cfgC1 [stubLayer]) :=
  c10_report_clock_independent cfgC1 [stubLayer] (fun _ => 0)
    (fun n => (n : Int)) "stub"
    (by
      intro l hm s₁ s₂ h
      rw [List.mem_singleton] at hm
      subst hm
      rfl)
    (by decide)

/-- Unfolding of the issue list of `processCodeQuality`. -/
theorem processCodeQuality_issues (snap : CQSnapshot) :
    (processCodeQuality snap).issues =
      (buildIssues
        (findUnusedSymbols (collectDeclaredSymbols snap.files).functions
          (collectReferences snap.fileContents))
        (findUnusedSymbols (collectDeclaredSymbols snap.files).methods
          (collectReferences snap.fileContents))
        (findUnusedClasses (collectDeclaredSymbols snap.files).classes
          (collectReferences snap.fileContents)
          (detectDynamicClassLoading snap.fileContents))
        (findUnusedImports snap.files snap.fileContents)
        (findUnusedDependencies snap.dependencies snap.fileContents)
        (findLargeFunctions snap.fileContents snap.files)
        (findCommentedCode snap.fileContents)).insertionSort
        (fun a b => sevRank a.severity ≤ sevRank b.severity) := rfl

/-- Membership in the sorted issue list coincides with membership in the
unsorted build (the final sort is a permutation). -/
theorem mem_processIssues {snap : CQSnapshot} {i : Issue} :
    i ∈ (processCodeQuality snap).issues ↔
      i ∈ buildIssues
        (findUnusedSymbols (collectDeclaredSymbols snap.files).functions
          (collectReferences snap.fileContents))
        (findUnusedSymbols (collectDeclaredSymbols snap.files).methods
          (collectReferences snap.fileContents))
        (findUnusedClasses (collectDeclaredSymbols snap.files).classes
          (collectReferences snap.fileContents)
          (detectDynamicClassLoading snap.fileContents))
        (findUnusedImports snap.files snap.fileContents)
        (findUnusedDependencies snap.dependencies snap.fileContents)
        (findLargeFunctions snap.fileContents snap.files)
        (findCommentedCode snap.fileContents) := by
  rw [processCodeQuality_issues]
  exact (List.perm_insertionSort _ _).mem_iff

/-- C5 (amended): with a dynamic-instantiation signal anywhere in the PHP
sources, every declared PHP class that is neither in the entry-point
allowlist nor in the reference set is still reported as an `unused_class`
issue, with severity `info`, its `dynamic` flag set, and the tag
`possibly dynamic` (rather than severity `warning`). -/
theorem c5_dynamic_downgrade (snap : CQSnapshot) (fa : FileAnalysis)
    (cls : ClassDecl) (hfa : fa ∈ snap.files) (hcls : cls ∈ fa.classes)
    (hphp : fa.language = "php")
    (hdyn : detectDynamicClassLoading snap.fileContents = true)
    (hentry : isEntryPoint cls.name = false)
    (hunref : (collectReferences snap.fileContents).contains cls.name = false) :
    ∃ i ∈ (processCodeQuality snap).issues,
      i.typ = "unused_class" ∧ i.name = cls.name ∧ i.file = some fa.path ∧
        i.severity = "info" ∧ i.dynamic = true ∧ i.tag = "possibly dynamic" := by
  have hsym : ({ name := cls.name, file := fa.path, line := cls.line,
                 language := fa.language } : Sym) ∈
      (collectDeclaredSymbols snap.files).classes := by
    simp only [collectDeclaredSymbols]
    exact List.mem_flatMap.mpr ⟨fa, hfa, List.mem_map.mpr ⟨cls, hcls, rfl⟩⟩
  have hu : ({ name := cls.name, file := fa.path, line := cls.line,
               language := fa.language, dynamic := true, severity := "info",
               description := "\"" ++ cls.name ++
                 "\" has no direct reference — likely loaded dynamically (new $variable pattern detected)" } :
      UnusedClassEntry) ∈
      findUnusedClasses (collectDeclaredSymbols snap.files).classes
        (collectReferences snap.fileContents)
        (detectDynamicClassLoading snap.fileContents) := by
    apply List.mem_filterMap.mpr
    refine ⟨_, hsym, ?_⟩
    have hnm : cls.name ∉ collectReferences snap.fileContents := by
      simpa using hunref
    simp [findUnusedClasses, hentry, hphp, hdyn, hnm]
  refine ⟨⟨cls.name, "unused_class", "info", "possibly dynamic", some fa.path,
           some cls.line, none, some fa.language, true, none, none, none, none,
           "\"" ++ cls.name ++
             "\" has no direct reference — likely loaded dynamically (new $variable pattern detected)"⟩,
         ?_, rfl, rfl, rfl, rfl, rfl, rfl⟩
  rw [mem_processIssues]
  simp only [buildIssues, List.mem_append]
  refine Or.inl (Or.inl (Or.inl (Or.inl (Or.inr ?_))))
  exact List.mem_map.mpr ⟨_, hu, rfl⟩

/-- C5 witness: the downgrade at the concrete dynamic-loading project. -/
theorem c5_witness :
    ∃ i ∈ (processCodeQuality snapC5).issues,
      i.typ = "unused_class" ∧ i.name = "Orphan" ∧ i.file = some "a.php" ∧
        i.severity = "info" ∧ i.dynamic = true ∧ i.tag = "possibly dynamic" :=
  c5_dynamic_downgrade snapC5
    { path := "a.php", language := "php",
      classes := [{ name := "Orphan", line := 2, methods := [] }] }
    { name := "Orphan", line := 2, methods := [] }
    (by decide) (by decide) rfl rfl rfl rfl

/-- C7: every entry of the complexity table scores its file as one plus the
unweighted counts of the nine branch-indicating constructs, with a matching
breakdown, and exceeds the reporting threshold (so files scoring below 10
are omitted); the table is sorted descending by score; and the
specification's scenario (twelve `if(`, three `for(`, two logical operators)
scores 18 and appears with its raw-count breakdown. -/
theorem c7_complexity_spec (fc : List (String × String)) :
    (∀ e ∈ analyzeComplexity fc, 10 < e.complexity ∧
      ∃ pc ∈ fc, e = complexityOf pc.1 (chars pc.2) ∧
        e.complexity = 1 + countKwParen (chars "if") (chars pc.2) +
          countKwWord (chars "else") (chars pc.2) +
          countKwParen (chars "for") (chars pc.2) +
          countKwParen (chars "while") (chars pc.2) +
          countKwParen (chars "switch") (chars pc.2) +
          countKwSpace (chars "case") (chars pc.2) +
          countKwParen (chars "catch") (chars pc.2) +
          countTernary (chars pc.2) + countAndOr (chars pc.2) ∧
        e.breakdown =
          { ifC := countKwParen (chars "if") (chars pc.2),
            elseC := countKwWord (chars "else") (chars pc.2),
            forC := countKwParen (chars "for") (chars pc.2),
            whileC := countKwParen (chars "while") (chars pc.2),
            switchC := countKwParen (chars "switch") (chars pc.2),
            caseC := countKwSpace (chars "case") (chars pc.2),
            catchC := countKwParen (chars "catch") (chars pc.2),
            ternary := countTernary (chars pc.2),
            logicalOps := countAndOr (chars pc.2) }) ∧
    List.Pairwise (fun a b => b.complexity ≤ a.complexity)
      (analyzeComplexity fc) ∧
    analyzeComplexity [("s.js", scenarioC7)] =
      [{ file := "s.js", complexity := 18, lines := 1,
         breakdown := { ifC := 12, elseC := 0, forC := 3, whileC := 0,
                        switchC := 0, caseC := 0, catchC := 0, ternary := 0,
                        logicalOps := 2 } }] := by
  refine ⟨?_, ?_, rfl⟩
  · intro e he
    simp only [analyzeComplexity] at he
    have he' := (List.perm_insertionSort _ _).mem_iff.mp he
    obtain ⟨pc, hpc, hf⟩ := List.mem_filterMap.mp he'
    by_cases h1 : pc.2 = "" || !hasComplexityExt pc.1
    · simp [h1] at hf
    · rw [if_neg (by simpa using h1)] at hf
      by_cases h2 : 10 < (complexityOf pc.1 (chars pc.2)).complexity
      · rw [if_pos h2] at hf
        obtain rfl : complexityOf pc.1 (chars pc.2) = e := Option.some.inj hf
        exact ⟨h2, pc, hpc, rfl, rfl, rfl⟩
      · simp [h2] at hf
  · letI : IsTotal CplxRec (fun a b => b.complexity ≤ a.complexity) :=
      ⟨fun a b => Nat.le_total b.complexity a.complexity⟩
    letI : IsTrans CplxRec (fun a b => b.complexity ≤ a.complexity) :=
      ⟨fun _ _ _ hab hbc => Nat.le_trans hbc hab⟩
    simpa only [analyzeComplexity] using
      List.sorted_insertionSort (fun a b : CplxRec => b.complexity ≤ a.complexity)
        (fc.filterMap fun pc =>
          if pc.2 = "" || !hasComplexityExt pc.1 then none
          else
            let r := complexityOf pc.1 (chars pc.2)
            if 10 < r.complexity then some r else none)

/-- C7 witness: the scenario instance of the complexity specification. -/
theorem c7_witness :
    analyzeComplexity [("s.js", scenarioC7)] =
      [{ file := "s.js", complexity := 18, lines := 1,
         breakdown := { ifC := 12, elseC := 0, forC := 3, whileC := 0,
                        switchC := 0, caseC := 0, catchC := 0, ternary := 0,
                        logicalOps := 2 } }] :=
  (c7_complexity_spec [("s.js", scenarioC7)]).2.2

/-- Severities assigned by `findUnusedClasses` are `info` or `warning`. -/
theorem findUnusedClasses_severity {d : List Sym} {r : List String}
    {hd : Bool} {u : UnusedClassEntry} (hu : u ∈ findUnusedClasses d r hd) :
    u.severity = "info" ∨ u.severity = "warning" := by
  obtain ⟨s, _, hs⟩ := List.mem_filterMap.mp hu
  dsimp only [findUnusedClasses] at hs
  split at hs
  · exact absurd hs (by simp)
  · split at hs
    · exact absurd hs (by simp)
    · obtain rfl := Option.some.inj hs
      by_cases h3 : (s.language = "php" && hd) = true
      · exact Or.inl (by simp [h3])
      · exact Or.inr (by simp [h3])

/-- C8 (amended): every issue emitted by the quality stage has its kind in
the seven-element set {unused_function, unused_method, unused_class,
unused_import, unused_dependency, large_function, commented_code} (the
source also emits `large_function`, missing from the claim's list) and its
severity in {critical, warning, info}. -/
theorem c8_issue_kinds_and_severities (snap : CQSnapshot) (i : Issue)
    (hi : i ∈ (processCodeQuality snap).issues) :
    i.typ ∈ ["unused_function", "unused_method", "unused_class",
      "unused_import", "unused_dependency", "large_function",
      "commented_code"] ∧
    (i.severity = "critical" ∨ i.severity = "warning" ∨
      i.severity = "info") := by
  rw [mem_processIssues] at hi
  simp only [buildIssues, List.mem_append] at hi
  rcases hi with ((((((h | h) | h) | h) | h) | h) | h) <;>
    obtain ⟨f, hf, rfl⟩ := List.mem_map.mp h
  · exact ⟨by simp, Or.inr (Or.inl rfl)⟩
  · exact ⟨by simp, Or.inr (Or.inl rfl)⟩
  · refine ⟨by simp, ?_⟩
    rcases findUnusedClasses_severity hf with h' | h'
    · exact Or.inr (Or.inr h')
    · exact Or.inr (Or.inl h')
  · exact ⟨by simp, Or.inr (Or.inr rfl)⟩
  · exact ⟨by simp, Or.inr (Or.inr rfl)⟩
  · refine ⟨by simp, ?_⟩
    by_cases hl : isLenientLanguage f.language
    · exact Or.inr (Or.inr (by simp [hl]))
    · exact Or.inr (Or.inl (by simp [hl]))
  · exact ⟨by simp, Or.inr (Or.inr rfl)⟩

/-- C8 witness: the kind/severity bound at the concrete `large_function`
issue of the 103-line function. -/
theorem c8_witness :
    ({ name := "big", typ := "large_function", severity := "info",
       tag := "103 lines", file := some "a.js", line := some 1,
       language := some "javascript", lines := some 103,
       threshold := some 100,
       description :=
         "Function \"big\" is 103 lines (threshold for javascript: 100)" } :
      Issue).typ ∈
      ["unused_function", "unused_method", "unused_class", "unused_import",
       "unused_dependency", "large_function", "commented_code"] ∧
    (({ name := "big", typ := "large_function", severity := "info",
        tag := "103 lines", file := some "a.js", line := some 1,
        language := some "javascript", lines := some 103,
        threshold := some 100,
        description :=
          "Function \"big\" is 103 lines (threshold for javascript: 100)" } :
       Issue).severity = "critical" ∨
      (({ name := "big", typ := "large_function", severity := "info",
          tag := "103 lines", file := some "a.js", line := some 1,
          language := some "javascript", lines := some 103,
          threshold := some 100,
          description :=
            "Function \"big\" is 103 lines (threshold for javascript: 100)" } :
        Issue).severity = "warning" ∨
       ({ name := "big", typ := "large_function", severity := "info",
          tag := "103 lines", file := some "a.js", line := some 1,
          language := some "javascript", lines := some 103,
          threshold := some 100,
          description :=
            "Function \"big\" is 103 lines (threshold for javascript: 100)" } :
        Issue).severity = "info")) :=
  c8_issue_kinds_and_severities snapC8 _ (by decide)

/-- A trimmed line starting with `//` does not start with `/*`. -/
theorem slashSlash_not_slashStar {t : List Char}
    (h : startsWithSeq (chars "//") t = true) :
    startsWithSeq (chars "/*") t = false := by
  match t with
  | [] => simp [startsWithSeq, chars, List.isPrefixOf] at h
  | [a] => simp [startsWithSeq, chars, List.isPrefixOf] at h
  | a :: b :: r =>
    simp only [startsWithSeq, chars, List.isPrefixOf, Bool.and_eq_true,
      beq_iff_eq] at h ⊢
    rw [← h.1, ← h.2.1]
    rfl

/-- A trimmed line starting with `#` does not start with `/*`. -/
theorem hash_not_slashStar {t : List Char}
    (h : startsWithSeq (chars "#") t = true) :
    startsWithSeq (chars "/*") t = false := by
  match t with
  | [] => simp [startsWithSeq, chars, List.isPrefixOf] at h
  | a :: r =>
    simp only [startsWithSeq, chars, List.isPrefixOf, Bool.and_eq_true,
      beq_iff_eq] at h ⊢
    rw [← h.1]
    rfl

/-- Scanner step on a non-comment line with nothing accumulated: no
change. -/
theorem ccStep_neutral_zero (f : String) (all : List (List Char)) (j : Nat)
    (l : List Char) (bs : Option Nat) (d : Bool) (res : List CommentRec)
    (hl : neutralLine l = true) :
    ccStep f all j l ⟨bs, 0, false, d, res⟩ = ⟨bs, 0, false, d, res⟩ := by
  simp only [neutralLine, Bool.and_eq_true, Bool.not_eq_true'] at hl
  obtain ⟨⟨h1, h2⟩, h3⟩ := hl
  simp [ccStep, h1, h2, h3]

/-- Scanner step on a single-line comment with no block comment open: the
run grows by one and the start index is recorded on the first line. -/
theorem ccStep_comment (f : String) (all : List (List Char)) (j : Nat)
    (l : List Char) (bs : Option Nat) (m : Nat) (d : Bool)
    (res : List CommentRec) (hl : lineCommentOnly l = true) :
    ccStep f all j l ⟨bs, m, false, d, res⟩ =
      ⟨(match bs with | none => some j | some b => some b), m + 1, false, d,
        res⟩ := by
  simp only [lineCommentOnly, Bool.or_eq_true, Bool.and_eq_true,
    Bool.not_eq_true'] at hl
  rcases hl with h | ⟨h, hsb⟩
  · simp [ccStep, slashSlash_not_slashStar h, h]
  · simp [ccStep, hash_not_slashStar h, h, hsb]

/-- Scanner step on a non-comment line with an accumulated run: the run is
flushed. -/
theorem ccStep_neutral_flush (f : String) (all : List (List Char)) (j : Nat)
    (l : List Char) (bs : Option Nat) (m : Nat) (d : Bool)
    (res : List CommentRec) (hl : neutralLine l = true) (hm : 0 < m) :
    ccStep f all j l ⟨bs, m, false, d, res⟩ =
      flushBlock f j ⟨bs, m, false, d, res⟩ := by
  simp only [neutralLine, Bool.and_eq_true, Bool.not_eq_true'] at hl
  obtain ⟨⟨h1, h2⟩, h3⟩ := hl
  simp [ccStep, h1, h2, h3, hm]

/-- Flush of an open non-doc run: the state resets and a record is appended
exactly when the run has at least eight lines. -/
theorem flushBlock_run (f : String) (endLine b m : Nat)
    (res : List CommentRec) :
    flushBlock f endLine ⟨some b, m, false, false, res⟩ =
      ⟨none, 0, false, false,
        res ++ (if 8 ≤ m then
          [{ name := toString m ++ " commented lines", file := f,
             line := b + 1, lines := m,
             description := toString m ++
               " consecutive commented lines (line " ++ toString (b + 1) ++
               "-" ++ toString endLine ++
               "). Consider removing dead code to reduce file size." }]
        else [])⟩ := by
  simp only [flushBlock]
  by_cases hk : 8 ≤ m
  · simp [hk]
  · simp [hk]

/-- Loop split over a concatenation of line lists. -/
theorem ccLoop_append (f : String) (all : List (List Char))
    (xs ys : List (List Char)) (j : Nat) (s : CCState) :
    ccLoop f all j (xs ++ ys) s =
      ccLoop f all (j + xs.length) ys (ccLoop f all j xs s) := by
  induction xs generalizing j s with
  | nil => simp [ccLoop]
  | cons x xs ih =>
    rw [List.cons_append, ccLoop, ccLoop, ih]
    have : j + 1 + xs.length = j + (xs.length + 1) := by omega
    rw [this]
    rfl

/-- The loop ignores non-comment lines while nothing is accumulated. -/
theorem ccLoop_neutral (f : String) (all : List (List Char))
    (ls : List (List Char)) (hls : ∀ l ∈ ls, neutralLine l = true) (j : Nat)
    (bs : Option Nat) (d : Bool) (res : List CommentRec) :
    ccLoop f all j ls ⟨bs, 0, false, d, res⟩ = ⟨bs, 0, false, d, res⟩ := by
  induction ls generalizing j with
  | nil => rfl
  | cons x xs ih =>
    rw [ccLoop, ccStep_neutral_zero f all j x bs d res
      (hls x (List.mem_cons_self x xs))]
    exact ih (fun l hm => hls l (List.mem_cons_of_mem x hm)) (j + 1)

/-- The loop extends an open run over single-line comments, keeping its
start index. -/
theorem ccLoop_comments (f : String) (all : List (List Char))
    (ls : List (List Char)) (hls : ∀ l ∈ ls, lineCommentOnly l = true)
    (j b m : Nat) (d : Bool) (res : List CommentRec) :
    ccLoop f all j ls ⟨some b, m, false, d, res⟩ =
      ⟨some b, m + ls.length, false, d, res⟩ := by
  induction ls generalizing j m with
  | nil => rfl
  | cons x xs ih =>
    rw [ccLoop, ccStep_comment f all j x (some b) m d res
      (hls x (List.mem_cons_self x xs))]
    rw [ih (fun l hm => hls l (List.mem_cons_of_mem x hm)) (j + 1)]
    have : m + 1 + xs.length = m + (xs.length + 1) := by omega
    rw [this]
    rfl

/-- C6 (amended): in a file made of non-comment lines surrounding one
contiguous run of single-line comments, the run is reported exactly once
with its `lines` field equal to the run length when that length is at least
8, and not at all otherwise — in particular a 7-line run is never reported
and an 8-line run of `//` comments (which contains no doc-style opener) is
reported once with `lines = 8`. -/
theorem c6_line_comment_run_threshold (f : String)
    (pre run suf : List (List Char))
    (hpre : ∀ l ∈ pre, neutralLine l = true)
    (hrun : ∀ l ∈ run, lineCommentOnly l = true)
    (hsuf : ∀ l ∈ suf, neutralLine l = true) :
    findCommentedCodeFile f (pre ++ run ++ suf) =
      if 8 ≤ run.length then
        [{ name := toString run.length ++ " commented lines", file := f,
           line := pre.length + 1, lines := run.length,
           description := toString run.length ++
             " consecutive commented lines (line " ++
             toString (pre.length + 1) ++ "-" ++
             toString (pre.length + run.length) ++
             "). Consider removing dead code to reduce file size." }]
      else [] := by
  unfold findCommentedCodeFile
  rw [List.append_assoc]
  rw [show ({} : CCState) = ⟨none, 0, false, false, []⟩ from rfl]
  rw [ccLoop_append, ccLoop_neutral f _ pre hpre 0 none false []]
  cases run with
  | nil =>
    rw [List.nil_append, ccLoop_neutral f _ suf hsuf _ none false []]
    simp
  | cons r0 rs =>
    rw [List.cons_append, ccLoop,
      ccStep_comment f _ _ r0 none 0 false []
        (hrun r0 (List.mem_cons_self r0 rs)),
      ccLoop_append,
      ccLoop_comments f _ rs
        (fun l hm => hrun l (List.mem_cons_of_mem r0 hm))]
    simp only [Nat.zero_add]
    have hlen : (pre ++ r0 :: (rs ++ suf)).length =
        pre.length + rs.length + suf.length + 1 := by
      simp [List.length_append]
      omega
    cases suf with
    | nil =>
      simp only [ccLoop]
      rw [if_pos (show (0:Nat) < 1 + rs.length by omega)]
      rw [hlen, flushBlock_run]
      simp only [List.length_nil, List.length_cons, List.nil_append]
      by_cases hk : 8 ≤ rs.length + 1
      · rw [if_pos (show 8 ≤ 1 + rs.length by omega), if_pos hk]
        have e1 : 1 + rs.length = rs.length + 1 := by omega
        have e2 : pre.length + rs.length + 0 + 1 = pre.length + (rs.length + 1) := by
          omega
        rw [e1, e2]
      · rw [if_neg (show ¬ 8 ≤ 1 + rs.length by omega), if_neg hk]
    | cons s0 ss =>
      rw [ccLoop,
        ccStep_neutral_flush f _ _ s0 _ _ false []
          (hsuf s0 (List.mem_cons_self s0 ss))
          (show (0:Nat) < 1 + rs.length by omega),
        flushBlock_run,
        ccLoop_neutral f _ ss
          (fun l hm => hsuf l (List.mem_cons_of_mem s0 hm))]
      simp only [ccLoop]
      rw [if_neg (show ¬ (0:Nat) < 0 by omega)]
      simp only [List.nil_append, List.length_cons]
      by_cases hk : 8 ≤ rs.length + 1
      · rw [if_pos (show 8 ≤ 1 + rs.length by omega), if_pos hk]
        have e1 : 1 + rs.length = rs.length + 1 := by omega
        have e2 : pre.length + 1 + rs.length = pre.length + (rs.length + 1) := by
          omega
        rw [e1, e2]
      · rw [if_neg (show ¬ 8 ≤ 1 + rs.length by omega), if_neg hk]

/-- C6 witness: an 8-line `//` run between plain code lines is reported once
with `lines = 8`, while the same theorem at a 7-line run yields nothing. -/
theorem c6_witness :
    findCommentedCodeFile "t.js"
        ([chars "const a = 1"] ++ List.replicate 8 (chars "// x") ++
          [chars "const b = 2"]) =
      (if 8 ≤ (List.replicate 8 (chars "// x")).length then
        [{ name := toString (List.replicate 8 (chars "// x")).length ++
             " commented lines", file := "t.js",
           line := [chars "const a = 1"].length + 1,
           lines := (List.replicate 8 (chars "// x")).length,
           description := toString (List.replicate 8 (chars "// x")).length ++
             " consecutive commented lines (line " ++
             toString ([chars "const a = 1"].length + 1) ++ "-" ++
             toString ([chars "const a = 1"].length +
               (List.replicate 8 (chars "// x")).length) ++
             "). Consider removing dead code to reduce file size." }]
      else []) :=
  c6_line_comment_run_threshold "t.js" [chars "const a = 1"]
    (List.replicate 8 (chars "// x")) [chars "const b = 2"]
    (by decide) (by decide) (by decide)

end CodeInspector
